import Mathlib

/-!
Verification of the HumanEval-X evaluation harness
(`codegeex/benchmark/humaneval-x/evaluate_humaneval_x.py` and
`codegeex/benchmark/utils.py`).  Python strings are modelled as Lean
`String`s; the Python primitives used by the code (`in`, `replace`,
`split`, `join`, `lstrip`, `strip`, `lower`, `rfind`, `find`, `count`)
are modelled below on `List Char` and lifted to `String`.
-/

namespace HumanEvalX

set_option maxRecDepth 8192

/-- Python whitespace characters, as used by `str.strip` / `str.lstrip`. -/
def pySpace (c : Char) : Bool :=
  c = ' ' || c = '\t' || c = '\n' || c = '\r' || c = '\x0b' || c = '\x0c'

/-- Python `s.lstrip()` on a character list. -/
def pyLstripL (l : List Char) : List Char := l.dropWhile pySpace

/-- Python `s.strip()` on a character list. -/
def pyStripL (l : List Char) : List Char :=
  ((l.dropWhile pySpace).reverse.dropWhile pySpace).reverse

/-- Python substring test `needle in hay`, as a Boolean on lists. -/
def inL (needle : List Char) : List Char → Bool
  | [] => needle.isEmpty
  | c :: rest => needle.isPrefixOf (c :: rest) || inL needle rest

/-- Python `hay.replace(old, new)` (all non-overlapping occurrences, left to
right) for a non-empty `old`; the Python empty-pattern case is handled by
`pyReplaceL` below.  The fuel argument (instantiated with the haystack
length, an upper bound on the number of scan steps, each of which consumes at
least one character) makes the recursion structural so that the kernel can
evaluate it. -/
def pyReplaceFuel (old new : List Char) : ℕ → List Char → List Char
  | _, [] => []
  | 0, l => l
  | Nat.succ fuel, c :: rest =>
    if old ≠ [] ∧ old.isPrefixOf (c :: rest) then
      new ++ pyReplaceFuel old new fuel ((c :: rest).drop old.length)
    else
      c :: pyReplaceFuel old new fuel rest

/-- Python `hay.replace(old, new)` including the empty-`old` edge case
(`"ab".replace("", "x") = "xaxbx"`). -/
def pyReplaceL (hay old new : List Char) : List Char :=
  if old = [] then new ++ (hay.map (fun c => [c] ++ new)).flatten
  else pyReplaceFuel old new hay.length hay

/-- Python `hay.replace(old, new, 1)` (first occurrence only), for
non-empty `old`. -/
def pyReplace1L (old new : List Char) : List Char → List Char
  | [] => []
  | c :: rest =>
    if old ≠ [] ∧ old.isPrefixOf (c :: rest) then
      new ++ (c :: rest).drop old.length
    else
      c :: pyReplace1L old new rest

/-- Python `s.split(sep)` for a non-empty separator, with the same
length-as-fuel scheme as `pyReplaceFuel` to keep the recursion structural. -/
def pySplitFuel (sep : List Char) : ℕ → List Char → List (List Char)
  | _, [] => [[]]
  | 0, l => [l]
  | Nat.succ fuel, c :: rest =>
    if sep ≠ [] ∧ sep.isPrefixOf (c :: rest) then
      [] :: pySplitFuel sep fuel ((c :: rest).drop sep.length)
    else
      match pySplitFuel sep fuel rest with
      | [] => [[c]]
      | r :: rs => (c :: r) :: rs

/-- Python `s.split(sep)` on character lists. -/
def pySplitL (sep l : List Char) : List (List Char) :=
  pySplitFuel sep l.length l

/-- Python `sep.join(xs)` on lists. -/
def pyJoinL (sep : List Char) : List (List Char) → List Char
  | [] => []
  | [x] => x
  | x :: xs => x ++ sep ++ pyJoinL sep xs

/-- Python `hay.rfind(needle)`: greatest index where `needle` starts, or
none. -/
def pyRFindL (needle hay : List Char) : Option ℕ :=
  (List.range (hay.length + 1)).reverse.find? (fun i => needle.isPrefixOf (hay.drop i))

/-- Python `hay.find(needle)`: least index where `needle` starts, or none. -/
def pyFindL (needle hay : List Char) : Option ℕ :=
  (List.range (hay.length + 1)).find? (fun i => needle.isPrefixOf (hay.drop i))

-- String-level wrappers ------------------------------------------------------

/-- Python `needle in hay` on strings. -/
def strIn (needle hay : String) : Bool := inL needle.data hay.data

/-- Python `hay.replace(old, new)` on strings. -/
def pyReplace (hay old new : String) : String := ⟨pyReplaceL hay.data old.data new.data⟩

/-- Python `hay.replace(old, new, 1)` on strings (non-empty `old`). -/
def pyReplace1 (hay old new : String) : String := ⟨pyReplace1L old.data new.data hay.data⟩

/-- Python `s.split(sep)` on strings (non-empty separator). -/
def pySplit (s sep : String) : List String := (pySplitL sep.data s.data).map String.mk

/-- Python `sep.join(xs)` on strings. -/
def pyJoin (sep : String) (xs : List String) : String :=
  ⟨pyJoinL sep.data (xs.map String.data)⟩

/-- Python `s.lstrip()` on strings. -/
def pyLstrip (s : String) : String := ⟨pyLstripL s.data⟩

/-- Python `s.strip()` on strings. -/
def pyStrip (s : String) : String := ⟨pyStripL s.data⟩

/-- Python `s.lower()` (ASCII; the data handled by the harness is ASCII). -/
def pyLower (s : String) : String := ⟨s.data.map Char.toLower⟩

/-- Python `s.split(sep)[0]`. -/
def pySeg0 (s sep : String) : String := (pySplit s sep).headD ""

/-- Python `s.split(sep)[-1]`. -/
def pySegLast (s sep : String) : String := (pySplit s sep).getLastD ""

/-- Python `hay.count(c)` for a single character. -/
def pyCountChar (hay : String) (c : Char) : ℕ := hay.data.count c

-- Constants from `codegeex/benchmark/utils.py` and
-- `codegeex/benchmark/humaneval-x/evaluate_humaneval_x.py` -------------------

/-- `IMPORT_HELPER["python"]` from `codegeex/benchmark/utils.py`. -/
def importHelperPython : List String :=
  ["import math",
   "import re",
   "import sys",
   "import copy",
   "import datetime",
   "import itertools",
   "import collections",
   "import heapq",
   "import statistics",
   "import functools",
   "import hashlib",
   "import numpy",
   "import numpy as np",
   "import string",
   "from typing import *",
   "from collections import *"]

/-- `IMPORT_HELPER["go"]` from `codegeex/benchmark/utils.py`. -/
def importHelperGo : List String :=
  ["math", "strings", "fmt", "strconv", "time", "bytes", "regexp", "sort",
   "math/rand", "crypto/md5"]

/-- `IMPORT_HELPER["cpp"]` from `codegeex/benchmark/utils.py`. -/
def importHelperCpp : List String :=
  ["#include<stdlib.h>",
   "#include<algorithm>",
   "#include<math.h>",
   "#include<stdio.h>",
   "#include<vector>",
   "#include<string>",
   "#include<climits>",
   "#include<cstring>",
   "#include<iostream>"]

/-- `LANGUAGE_NAME` from `evaluate_humaneval_x.py`, as an association list in
dict insertion order. -/
def languageName : List (String × String) :=
  [("cpp", "CPP"), ("go", "Go"), ("java", "Java"), ("js", "JavaScript"),
   ("python", "Python"), ("rust", "Rust")]

/-- The keys of `LANGUAGE_NAME`, in iteration order. -/
def languageKeys : List String := languageName.map Prod.fst

/-- The testify package path tested for with `in` in the Go branch. -/
def testifyPkg : String := "github.com/stretchr/testify/assert"

/-- The exact import line the Go branch removes with `str.replace`. -/
def testifyImportLine : String := "\n    \"github.com/stretchr/testify/assert\"\n"

/-- The in-file Go assertion stub appended when the scaffold mentioned the
testify package (the `stub` string literal in `process_humaneval_test`; its
leading newline is the literal newline after the opening triple quote). -/
def goAssertStub : String :=
  "\ntype humanevalAssert struct \x7b\n    t *testing.T\n\x7d\n\nfunc (a *humanevalAssert) Equal(expected, actual interface\x7b\x7d, msgAndArgs ...interface\x7b\x7d) bool \x7b\n    if !reflect.DeepEqual(expected, actual) \x7b\n        if len(msgAndArgs) > 0 \x7b\n            a.t.Errorf(\"assertion failed: %v\", msgAndArgs[0])\n        \x7d else \x7b\n            a.t.Errorf(\"assertion failed: expected %v got %v\", expected, actual)\n        \x7d\n        return false\n    \x7d\n    return true\n\x7d\n\ntype humanevalAssertPkg struct\x7b\x7d\n\nfunc (humanevalAssertPkg) New(t *testing.T) *humanevalAssert \x7b\n    t.Helper()\n    return &humanevalAssert\x7bt: t\x7d\n\x7d\n\nvar assert = humanevalAssertPkg\x7b\x7d\n"

-- `_extract_translation_target` -----------------------------------------------

/-- Characters matched by the regex class `[a-z\+]` in
`_extract_translation_target`. -/
def langTokChar (c : Char) : Bool := ('a' ≤ c && c ≤ 'z') || c = '+'

/-- Delimiter characters `[-_]` of the translation-target pattern. -/
def toDelim (c : Char) : Bool := c = '-' || c = '_'

/-- Leftmost match of the regex `[-_]to[-_]([a-z\+]+)` over a character list:
scan left to right; at each position try to match a delimiter, `to`, a
delimiter, then a non-empty maximal run of `[a-z\+]`, which is the captured
group. -/
def scanToTok : List Char → Option (List Char)
  | [] => none
  | c :: rest =>
    (match rest with
     | t :: o :: d :: tail =>
       if toDelim c && t = 't' && o = 'o' && toDelim d && (tail.takeWhile langTokChar ≠ []) then
         some (tail.takeWhile langTokChar)
       else scanToTok rest
     | _ => scanToTok rest)

/-- The alias normalization map in `_extract_translation_target`. -/
def translationAlias : List (String × String) :=
  [("javascript", "js"), ("js", "js"), ("python", "python"), ("py", "python"),
   ("c++", "cpp"), ("cplusplus", "cpp"), ("cpp", "cpp"), ("go", "go"),
   ("java", "java"), ("rust", "rust")]

/-- The fallback candidate list iterated by `_extract_translation_target`. -/
def translationCands : List String :=
  ["cpp", "c++", "cplusplus", "go", "java", "javascript", "js", "python", "py", "rust"]

/-- `_extract_translation_target(path)`: lower-case the path, find the leftmost
`[-_]to[-_]([a-z\+]+)` match, normalize the captured token through the alias
map, with a substring-match fallback over the known aliases. -/
def extractTranslationTarget (path : String) : Option String :=
  match scanToTok (pyLower path).data with
  | none => none
  | some rawL =>
    let raw : String := ⟨rawL⟩
    match translationAlias.lookup raw with
    | some v => some v
    | none =>
      match translationCands.find? (fun cand => strIn cand raw) with
      | some cand => some ((translationAlias.lookup cand).getD cand)
      | none => none

-- `_lang_from_problem_file` ---------------------------------------------------

/-- Characters matched by the regex class `[a-z0-9\+]` in
`_lang_from_problem_file`. -/
def langFileTokChar (c : Char) : Bool :=
  ('a' ≤ c && c ≤ 'z') || ('0' ≤ c && c ≤ '9') || c = '+'

/-- Leftmost match of `humaneval[_-]([a-z0-9\+]+)\.jsonl(\.gz)?$` over a
character list: at each position try to match the literal `humaneval`, a
delimiter, a non-empty maximal token run, and require the remainder to be
exactly `.jsonl` or `.jsonl.gz`. -/
def scanHumanevalTok : List Char → Option (List Char)
  | [] => none
  | c :: rest =>
    (if ("humaneval".data).isPrefixOf (c :: rest) then
      match (c :: rest).drop 9 with
      | d :: tail =>
        if toDelim d && (tail.takeWhile langFileTokChar ≠ []) &&
            (tail.dropWhile langFileTokChar = ".jsonl".data ||
             tail.dropWhile langFileTokChar = ".jsonl.gz".data) then
          some (tail.takeWhile langFileTokChar)
        else scanHumanevalTok rest
      | [] => scanHumanevalTok rest
    else scanHumanevalTok rest)

/-- The normalization dict of `_lang_from_problem_file` (`.get(raw, raw)`). -/
def langFileAlias : List (String × String) :=
  [("javascript", "js"), ("js", "js"), ("python", "python"), ("py", "python"),
   ("c++", "cpp"), ("cplusplus", "cpp"), ("cpp", "cpp"), ("go", "go"),
   ("java", "java"), ("rust", "rust")]

/-- `_lang_from_problem_file(problem_file)`: infer the language key from the
problem-file path (`problem_file or ""`, lower-cased, matched against
`humaneval[_-]<tok>.jsonl[.gz]$`, token normalized with `.get(raw, raw)`). -/
def langFromProblemFile (problemFile : Option String) : Option String :=
  match scanHumanevalTok (pyLower (problemFile.getD "")).data with
  | none => none
  | some rawL =>
    let raw : String := ⟨rawL⟩
    some ((langFileAlias.lookup raw).getD raw)

-- Data model ------------------------------------------------------------------

/-- A Problem record as read from the problem set; fields that
`process_humaneval_test` may reference.  `Option` models Python dict key
presence; `importLine` models the Python key `"import"`. -/
structure PyProblem where
  declaration : Option String := none
  test : Option String := none
  exampleTest : Option String := none
  importLine : Option String := none
  testSetup : Option String := none
  canonicalSolution : Option String := none
deriving DecidableEq

/-- A candidate sample record; fields that `process_humaneval_test` and the
orchestrator may reference. -/
structure PySample where
  taskId : String
  declaration : Option String := none
  generation : Option String := none
deriving DecidableEq

/-- Python exceptions the assembler can raise: a `KeyError` on a missing dict
key, or the `UnboundLocalError` from `return test_string` when no language
branch assigned `test_string`. -/
inductive PyErr where
  | keyError (k : String)
  | unboundLocalError
deriving DecidableEq

instance instDecEqExcept {ε α : Type} [DecidableEq ε] [DecidableEq α] :
    DecidableEq (Except ε α)
  | .ok x, .ok y =>
    if h : x = y then .isTrue (by rw [h]) else .isFalse (fun hh => h (Except.ok.inj hh))
  | .ok _, .error _ => .isFalse (fun hh => Except.noConfusion hh)
  | .error _, .ok _ => .isFalse (fun hh => Except.noConfusion hh)
  | .error x, .error y =>
    if h : x = y then .isTrue (by rw [h]) else .isFalse (fun hh => h (Except.error.inj hh))

/-- The problem set: a mapping from task id to problem record. -/
def Problems := String → Option PyProblem

/-- Python `problems[task_id]`, raising `KeyError(task_id)` when absent. -/
def getProblem (problems : Problems) (taskId : String) : Except PyErr PyProblem :=
  match problems taskId with
  | some p => .ok p
  | none => .error (.keyError taskId)

/-- Python `problems[task_id]["test"]` (lines 117/146), raising `KeyError` on
the missing dict or the missing field. -/
def getTestField (problems : Problems) (taskId : String) : Except PyErr String :=
  match problems taskId with
  | some p =>
    match p.test with
    | some t => .ok t
    | none => .error (.keyError "test")
  | none => .error (.keyError taskId)

/-- Lines 114-117: `if example_test and "example_test" in problems[task_id]
and problems[task_id]["example_test"] != ""` — select the example test only
when the flag is set and the field is present and non-empty, else the hidden
test; Python's short-circuit evaluation order decides which `KeyError` can
surface. -/
def selectTest (problems : Problems) (taskId : String) (exampleTest : Bool) :
    Except PyErr String :=
  if exampleTest then
    match problems taskId with
    | none => .error (.keyError taskId)
    | some p =>
      match p.exampleTest with
      | some ex => if ex ≠ "" then pure ex else getTestField problems taskId
      | none => getTestField problems taskId
  else getTestField problems taskId

/-- Lines 143-146: the Go branch re-selects the test, but WITHOUT the
non-emptiness check of line 114. -/
def goSelectTest (p : PyProblem) (problems : Problems) (taskId : String)
    (exampleTest : Bool) : Except PyErr String :=
  if exampleTest then
    match p.exampleTest with
    | some ex => pure ex
    | none => getTestField problems taskId
  else getTestField problems taskId

/-- The truncation loop of the Python branch (lines 122-126): keep lines until
the first line that is non-empty after `strip` and whose first character is
neither a space nor a tab (`break`). -/
def pythonStopLine (line : List Char) : Bool :=
  match line with
  | [] => false
  | c :: rest => !(pyStripL (c :: rest)).isEmpty && c ≠ ' ' && c ≠ '\t'

/-- The `for line in code.split("\n")` loop with `break`, building `code_`. -/
def pythonTruncLoop : List (List Char) → List (List Char)
  | [] => []
  | line :: rest => if pythonStopLine line then [] else line :: pythonTruncLoop rest

/-- The C++ setup loop (lines 131-134): append each helper include not already
occurring in the declaration. -/
def cppSetup (declaration : String) : String :=
  importHelperCpp.foldl (fun acc s => if strIn s declaration then acc else acc ++ s ++ "\n") ""

/-- The Go `other_pkgs` loop (lines 152-157): for each helper package not
occurring in the (possibly rewritten) test setup, include its quoted form when
`lastSegment + "."` occurs in the generated code. -/
def goOtherPkgs (testSetup code : String) : List String :=
  importHelperGo.filterMap (fun pkg =>
    if !strIn pkg testSetup && strIn (pySegLast pkg "/" ++ ".") code then
      some ("\"" ++ pkg ++ "\"")
    else none)

/-- The Python branch of `process_humaneval_test` (lines 121-129). -/
def processPythonBody (declaration code test : String) : String :=
  let codeLines := pythonTruncLoop (pySplitL "\n".data code.data)
  let code : String := ⟨pyJoinL "\n".data codeLines⟩
  let testSetup := pyJoin "\n" importHelperPython ++ "\n"
  testSetup ++ declaration ++ code ++ "\n" ++ test ++ "\n"

/-- The Go branch of `process_humaneval_test` (lines 140-166). -/
def processGoBranch (problems : Problems) (taskId : String) (exampleTest : Bool)
    (declaration code : String) : Except PyErr String := do
  let p ← getProblem problems taskId
  let importString ←
    match p.importLine with
    | some s => (pure s : Except PyErr String)
    | none => .error (.keyError "import")
  let declaration := pyReplace declaration importString ""
  let test ← goSelectTest p problems taskId exampleTest
  let testSetup₀ ←
    match p.testSetup with
    | some s => (pure s : Except PyErr String)
    | none => .error (.keyError "test_setup")
  let testSetup :=
    if strIn testifyPkg testSetup₀ then
      let ts := pyReplace testSetup₀ testifyImportLine "\n"
      if !strIn "\"reflect\"" ts then
        pyReplace1 ts "import (\n" "import (\n    \"reflect\"\n"
      else ts
    else testSetup₀
  let otherPkgs := goOtherPkgs testSetup code
  let testString :=
    if otherPkgs ≠ [] then
      let importOtherPkgs :=
        "import (\n" ++ pyJoin "    " (otherPkgs.map (fun p => p ++ "\n")) ++ ")"
      testSetup ++ "\n" ++ importOtherPkgs ++ "\n" ++ declaration ++ code ++ "\n" ++ test
    else
      testSetup ++ "\n" ++ declaration ++ code ++ "\n" ++ test
  -- lines 163-166: the stub is appended based on the ORIGINAL test_setup
  if strIn testifyPkg testSetup₀ then
    pure (testString ++ "\n" ++ goAssertStub)
  else
    pure testString

/-- The Rust branch of `process_humaneval_test` (lines 167-170). -/
def processRustBranch (problems : Problems) (taskId : String) (code test : String) :
    Except PyErr String := do
  let mainStr := "\nfn main()\x7b \n \x7d \n"
  let p ← getProblem problems taskId
  let declaration ←
    match p.declaration with
    | some d => (pure d : Except PyErr String)
    | none => .error (.keyError "declaration")
  pure (mainStr ++ declaration ++ code ++ test)

/-- `process_humaneval_test(sample, problems, example_test)`
(`evaluate_humaneval_x.py`, lines 106-172), with Python's evaluation order and
exception behavior made explicit in the `Except` monad; the language branches
are split out above. -/
def processHumanevalTest (sample : PySample) (problems : Problems)
    (exampleTest : Bool) : Except PyErr String := do
  let taskId := sample.taskId
  let language := pyLower (pySeg0 taskId "/")
  let canonicalDeclaration :=
    match problems taskId with
    | some p => p.declaration.getD ""
    | none => ""
  let declaration := pyLstrip (sample.declaration.getD canonicalDeclaration)
  let test ← selectTest problems taskId exampleTest
  let code ←
    match sample.generation with
    | some c => (pure c : Except PyErr String)
    | none => .error (.keyError "generation")
  if language = "python" then
    pure (processPythonBody declaration code test)
  else if language = "cpp" then
    pure (cppSetup declaration ++ "\n" ++ declaration ++ code ++ "\n" ++ test)
  else if language = "java" then
    pure (declaration ++ code ++ "\n" ++ test)
  else if language = "js" || language = "javascript" then
    pure (declaration ++ code ++ "\n" ++ test)
  else if language = "go" then
    processGoBranch problems taskId exampleTest declaration code
  else if language = "rust" then
    processRustBranch problems taskId code test
  else
    .error .unboundLocalError

-- Orchestrator (evaluate_functional_correctness) ------------------------------

/-- The per-sample completion-id assignment loop (lines 313-321): each sample
carries a final task id and an optional explicit `completion_id`; the
`Counter` is incremented once per sample, and the assigned id is the explicit
one when present, else the current counter value for that task. -/
def assignIds (cnt : String → ℕ) : List (String × Option ℕ) → List (String × ℕ)
  | [] => []
  | (t, ex) :: rest =>
    (t, ex.getD (cnt t)) :: assignIds (fun u => if u = t then cnt t + 1 else cnt u) rest

/-- Line 324: `len(completion_id) == len(problems)` — the number of distinct
task ids that received a sample equals the number of loaded problems. -/
def coverageDecision (problemIds : List String) (sampleTasks : List String) : Bool :=
  sampleTasks.dedup.length == problemIds.length

/-- The per-sample language resolution of lines 291-303, returning the
execution language and the rewritten task id (translation mode rewrites the
task id through `LANGUAGE_NAME[lang]`, a lookup that raises `KeyError` when
the language is not a known key).  After the translation block, `javascript`
is normalized to `js`. -/
def resolveSampleLang (taskId : String) (tgtLang : Option String) :
    Except PyErr (String × String) := do
  let lang := pyLower (pySeg0 taskId "/")
  let (lang, taskId) ←
    match tgtLang with
    | none => (pure (lang, taskId) : Except PyErr (String × String))
    | some t => do
      let tid := pySegLast taskId "/"
      let lang := if languageKeys.contains t then t
        else ((languageKeys.find? (fun l => strIn l t)).getD t)
      match languageName.lookup lang with
      | some name => pure (lang, name ++ "/" ++ tid)
      | none => .error (.keyError lang)
  pure (if lang = "javascript" then ("js", taskId) else (lang, taskId))

/-- The execution language assigned to a sample, ignoring the rewritten task
id. -/
def resolvedLang (taskId : String) (tgtLang : Option String) : Except PyErr String :=
  (resolveSampleLang taskId tgtLang).map Prod.fst

-- Score estimator --------------------------------------------------------------

/-- Modelled from the spec: the per-task unbiased `pass@k` estimator of
`codegeex.benchmark.metric.estimate_pass_at_k` (module not under `src/`);
§4.4 of the spec: `pass@k = 1 − C(n−c, k) / C(n, k)` when `n − c ≥ k`,
else `1`. -/
def estimatePassAtK (n c k : ℕ) : ℚ :=
  if n - c < k then 1
  else 1 - ((n - c).choose k : ℚ) / (n.choose k : ℚ)

/-- Arithmetic mean of a list of rationals (`numpy .mean()`). -/
def listMean (xs : List ℚ) : ℚ := xs.sum / xs.length

/-- One entry of the dict comprehension at lines 345-346: the reported
`pass@k` for one requested `k` — present only when **every** task has at
least `k` samples (`(total >= kk).all()`), and then equal to the mean of the
per-task estimates over **all** tasks. -/
def passAtKValue (totals corrects : List ℕ) (k : ℕ) : Option ℚ :=
  if totals.all (fun t => k ≤ t) then
    some (listMean ((totals.zip corrects).map (fun p => estimatePassAtK p.1 p.2 k)))
  else none

/-- The full `pass_at_k` dict of lines 342-346, keyed by the requested `k`. -/
def passAtKList (ks : List ℕ) (totals corrects : List ℕ) : List (ℕ × ℚ) :=
  ks.filterMap (fun k => (passAtKValue totals corrects k).map (fun v => (k, v)))

/-- Lines 323-350 as a single outcome: when every loaded problem received a
sample the run computes the `pass@k` table, otherwise it reports only the raw
totals (samples seen, samples passed). -/
def runReport (problemIds sampleTasks : List String) (ks totals corrects : List ℕ) :
    List (ℕ × ℚ) ⊕ ℕ × ℕ :=
  if coverageDecision problemIds sampleTasks then
    Sum.inl (passAtKList ks totals corrects)
  else
    Sum.inr (totals.sum, corrects.sum)

-- Output trace -----------------------------------------------------------------

/-- Output channels of the run. -/
inductive Chan where
  | stdout
  | stderr
deriving DecidableEq

/-- Decimal digit character of `n % 10`. -/
def digitChar (n : ℕ) : Char := Char.ofNat (48 + n % 10)

/-- Round-half-even of `q * 10^6`, as used by Python `format(x, ".6f")`. -/
def round6 (q : ℚ) : ℤ :=
  let x := q * 1000000
  let n := ⌊x⌋
  let r := x - n
  if r > 1/2 then n + 1
  else if r < 1/2 then n
  else if n % 2 = 0 then n else n + 1

/-- Python `f"{float(v):.6f}"`: sign, integer part, and exactly six fractional
digits. -/
def toFixed6 (q : ℚ) : String :=
  let m := round6 q
  let a := m.natAbs
  let frac := String.mk [digitChar (a / 100000), digitChar (a / 10000),
    digitChar (a / 1000), digitChar (a / 100), digitChar (a / 10), digitChar a]
  (if m < 0 then "-" else "") ++ toString (a / 1000000) ++ "." ++ frac

/-- The `fmt` helper of lines 368-372: `float("")` raises, caught and mapped
to the empty string; a present value is formatted to six decimals. -/
def fmtMetric : Option ℚ → String
  | none => ""
  | some q => toFixed6 q

/-- The CSV summary row of lines 373-379: inferred language key, input file,
and the three formatted (or blank) metrics. -/
def csvLine (problemFile inputFile : Option String) (pak : List (ℕ × ℚ)) : String :=
  String.intercalate ","
    [((langFromProblemFile problemFile).getD ""),
     inputFile.getD "",
     fmtMetric (pak.lookup 1),
     fmtMetric (pak.lookup 10),
     fmtMetric (pak.lookup 100)]

/-- The ordered emissions of one `evaluate_functional_correctness` run
(sample mode), mirroring every `print` in lines 240-382: all diagnostics carry
`file=sys.stderr`; only the CSV row of line 381 goes to stdout.
`counterRepr` abstracts the printed `repr` of the `Counter` (line 323). -/
def runTrace (exampleTest groundTruth : Bool) (problemIds sampleTasks : List String)
    (counterRepr : String) (ks totals corrects : List ℕ)
    (outFile : String) (problemFile inputFile : Option String) :
    List (Chan × String) :=
  let cov := coverageDecision problemIds sampleTasks
  let pak := if cov then passAtKList ks totals corrects else []
  (if exampleTest then [(Chan.stderr, "Example test...")] else []) ++
  [(Chan.stderr, if groundTruth then "Testing ground truth..." else "Reading samples...")] ++
  [(Chan.stderr, counterRepr)] ++
  [(Chan.stderr, "Running test suites...")] ++
  (if cov then []
   else [(Chan.stderr, "Total: " ++ toString totals.sum),
         (Chan.stderr, "Correct: " ++ toString corrects.sum)]) ++
  [(Chan.stderr, "Writing to:  " ++ outFile)] ++
  [(Chan.stdout, csvLine problemFile inputFile pak)] ++
  [(Chan.stderr, "Evaluation finished.")]

-- `cleanup_code` (codegeex/benchmark/utils.py, lines 166-208) ------------------

/-- `code[:code.rfind(w)]` applied when `w in code` (the Python-branch body of
`cleanup_code`). -/
def cutAtRFind (code : String) (w : String) : String :=
  if strIn w code then
    match pyRFindL w.data code.data with
    | some i => ⟨code.data.take i⟩
    | none => code
  else code

/-- `code[:code.rfind('}')] + '}'` applied when `'}' in code`. -/
def cutAtLastBrace (code : String) : String :=
  if strIn "\x7d" code then
    match pyRFindL "\x7d".data code.data with
    | some i => ⟨code.data.take i⟩ ++ "\x7d"
    | none => code
  else code

/-- `cleanup_code(code, language_type, dataset)` from
`codegeex/benchmark/utils.py`: returns the code unchanged when
`language_type` or `dataset` is `None`, otherwise applies the per-language
truncation heuristics for HumanEval datasets. -/
def cleanupCode (code : String) (languageType : Option String)
    (dataset : Option String) : String :=
  match languageType, dataset with
  | none, _ => code
  | _, none => code
  | some lt, some ds =>
    if strIn "humaneval" (pyLower ds) then
      if pyLower lt = "python" then
        ["\ndef", "\nclass", "\nif", "\n#", "\nprint", "\nassert"].foldl cutAtRFind code
      else if pyLower lt = "java" then
        let code :=
          match pyFindL "public static void main".data code.data with
          | some i => (⟨code.data.take i⟩ : String) ++ "\x7d"
          | none => code
        let code := cutAtLastBrace code
        if pyCountChar code '\x7b' + 1 = pyCountChar code '\x7d' then code ++ "\n\x7d"
        else code
      else if pyLower lt = "go" then
        let code := ["\n//", "\nfunc main("].foldl cutAtRFind code
        cutAtLastBrace code
      else if pyLower lt = "cpp" then cutAtLastBrace code
      else if pyLower lt = "js" then cutAtLastBrace code
      else if pyLower lt = "rust" then cutAtLastBrace code
      else code
    else code

-- Shared lemmas ----------------------------------------------------------------

lemma lookup_mem_pairs {α β : Type} [BEq α] (l : List (α × β)) (a : α) (v : β)
    (h : l.lookup a = some v) : ∃ k, (k, v) ∈ l := by
  induction l with
  | nil => simp [List.lookup] at h
  | cons p rest ih =>
    rw [List.lookup] at h
    split at h
    · exact ⟨p.1, by simp [← Option.some_inj.mp h]⟩
    · obtain ⟨k, hk⟩ := ih h
      exact ⟨k, List.mem_cons_of_mem _ hk⟩

lemma infix_split {α : Type} {n a b : List α} (h : n <:+: a ++ b) :
    n <:+: a ∨ n <:+: b ∨
      ∃ n₁ n₂, n = n₁ ++ n₂ ∧ n₁ ≠ [] ∧ n₂ ≠ [] ∧ n₁ <:+ a ∧ n₂ <+: b := by
  obtain ⟨s, t, hst⟩ := h
  have h1 : (s ++ n) ++ t = a ++ b := by simpa [List.append_assoc] using hst
  rcases List.append_eq_append_iff.mp h1 with ⟨w, hw1, hw2⟩ | ⟨w, hw1, hw2⟩
  · exact Or.inl ⟨s, w, by rw [hw1, List.append_assoc]⟩
  · rcases List.append_eq_append_iff.mp hw1 with ⟨v, hv1, hv2⟩ | ⟨v, hv1, hv2⟩
    · rcases eq_or_ne w [] with rfl | hw
      · refine Or.inl ⟨s, [], ?_⟩
        rw [hv1, hv2]
        simp
      · rcases eq_or_ne v [] with rfl | hv
        · refine Or.inr (Or.inl ⟨[], t, ?_⟩)
          rw [hw2, hv2]
          simp
        · exact Or.inr (Or.inr ⟨v, w, hv2, hv, hw, ⟨s, hv1.symm⟩, ⟨t, hw2.symm⟩⟩)
    · refine Or.inr (Or.inl ⟨v, t, ?_⟩)
      rw [hw2, hv2, List.append_assoc]

lemma not_infix_append_head {α : Type} {n a b : List α}
    (h₁ : ¬ n <:+: a) (h₂ : ¬ n <:+: b)
    (h₃ : ∀ c, b.head? = some c → c ∉ n) : ¬ n <:+: a ++ b := by
  intro h
  rcases infix_split h with h | h | ⟨n₁, n₂, hn, hn₁, hn₂, hsuf, hpre⟩
  · exact h₁ h
  · exact h₂ h
  · obtain ⟨t, ht⟩ := hpre
    cases n₂ with
    | nil => exact hn₂ rfl
    | cons c rest =>
      have hb : b.head? = some c := by rw [← ht]; rfl
      exact h₃ c hb (by rw [hn]; exact List.mem_append.mpr (Or.inr (List.mem_cons_self _ _)))

lemma not_infix_append_last {α : Type} {n a b : List α}
    (h₁ : ¬ n <:+: a) (h₂ : ¬ n <:+: b)
    (h₃ : ∀ c, a.getLast? = some c → c ∉ n) : ¬ n <:+: a ++ b := by
  intro h
  rcases infix_split h with h | h | ⟨n₁, n₂, hn, hn₁, hn₂, hsuf, hpre⟩
  · exact h₁ h
  · exact h₂ h
  · obtain ⟨t, ht⟩ := hsuf
    have h4 : n₁.getLast? = some (n₁.getLast hn₁) := List.getLast?_eq_getLast n₁ hn₁
    have hlast : a.getLast? = some (n₁.getLast hn₁) := by
      rw [← ht, List.getLast?_append, h4]
      rfl
    exact h₃ _ hlast (by rw [hn]; exact List.mem_append.mpr (Or.inl (List.getLast_mem hn₁)))

lemma not_infix_of_lt_length {α : Type} {n s : List α} (h : s.length < n.length) :
    ¬ n <:+: s :=
  fun hi => absurd hi.length_le (by omega)

lemma infix_append_right {α : Type} {n b : List α} (a : List α) (h : n <:+: b) :
    n <:+: a ++ b := by
  obtain ⟨s, t, hst⟩ := h
  exact ⟨a ++ s, t, by rw [← hst]; simp [List.append_assoc]⟩

lemma inL_eq_true_iff (n h : List Char) : inL n h = true ↔ n <:+: h := by
  induction h with
  | nil =>
    simp only [inL, List.isEmpty_iff]
    constructor
    · intro hh
      rw [hh]
    · intro hh
      have h1 := hh.length_le
      simp only [List.length_nil, Nat.le_zero] at h1
      exact List.length_eq_zero.mp h1
  | cons c rest ih =>
    rw [inL]
    simp [List.isPrefixOf_iff_prefix, ih, List.infix_cons_iff, Bool.or_eq_true]

lemma strIn_iff (n h : String) : strIn n h = true ↔ n.data <:+: h.data :=
  inL_eq_true_iff _ _

-- Claim C10 --------------------------------------------------------------------

/-- C10: for every input string `code`, `cleanup_code(code, language_type,
dataset)` returns `code` unchanged whenever `language_type` is `None` or
`dataset` is `None`. -/
theorem claim_c10_cleanup_identity (code : String) (lt ds : Option String)
    (h : lt = none ∨ ds = none) : cleanupCode code lt ds = code := by
  rcases h with rfl | rfl
  · cases ds <;> rfl
  · cases lt <;> rfl

/-- Witness for C10 at a concrete input. -/
theorem claim_c10_witness :
    cleanupCode "def f():\nif x" (some "python") none = "def f():\nif x" :=
  claim_c10_cleanup_identity "def f():\nif x" (some "python") none (Or.inr rfl)

-- Claim C1 ---------------------------------------------------------------------

/-- C1: in a run over candidate samples whose task ids all belong to the
(duplicate-free) loaded problem set, the full pass@k report is computed if
and only if every problem received at least one sample; otherwise the run
reports only the raw totals. -/
theorem claim_c1_passk_iff_full_coverage
    (problemIds sampleTasks : List String) (ks totals corrects : List ℕ)
    (hnd : problemIds.Nodup) (hsub : ∀ t ∈ sampleTasks, t ∈ problemIds) :
    ((runReport problemIds sampleTasks ks totals corrects).isLeft = true ↔
      ∀ p ∈ problemIds, p ∈ sampleTasks) ∧
    (coverageDecision problemIds sampleTasks = false →
      runReport problemIds sampleTasks ks totals corrects =
        Sum.inr (totals.sum, corrects.sum)) := by
  have hcard : sampleTasks.dedup.length = sampleTasks.toFinset.card :=
    (List.card_toFinset _).symm
  have hcardP : problemIds.length = problemIds.toFinset.card :=
    (List.toFinset_card_of_nodup hnd).symm
  have hss : sampleTasks.toFinset ⊆ problemIds.toFinset := by
    intro x hx
    rw [List.mem_toFinset] at hx ⊢
    exact hsub x hx
  constructor
  · have hleft : (runReport problemIds sampleTasks ks totals corrects).isLeft =
        coverageDecision problemIds sampleTasks := by
      unfold runReport
      split <;> simp_all
    rw [hleft]
    unfold coverageDecision
    rw [beq_iff_eq]
    constructor
    · intro h p hp
      have heq : sampleTasks.toFinset = problemIds.toFinset :=
        Finset.eq_of_subset_of_card_le hss (by omega)
      have : p ∈ sampleTasks.toFinset := by
        rw [heq]
        exact List.mem_toFinset.mpr hp
      exact List.mem_toFinset.mp this
    · intro h
      have hss2 : problemIds.toFinset ⊆ sampleTasks.toFinset := by
        intro x hx
        rw [List.mem_toFinset] at hx ⊢
        exact h x hx
      have heq : sampleTasks.toFinset = problemIds.toFinset :=
        Finset.Subset.antisymm hss hss2
      have := congrArg Finset.card heq
      omega
  · intro hcov
    unfold runReport
    rw [hcov]
    rfl

/-- Witness for C1: full coverage on a concrete run computes the report, and
the iff is discharged at a concrete input. -/
theorem claim_c1_witness :
    ((runReport ["A", "B"] ["B", "A", "A"] [1] [2, 1] [1, 1]).isLeft = true ↔
      ∀ p ∈ ["A", "B"], p ∈ ["B", "A", "A"]) ∧
    (coverageDecision ["A", "B"] ["B", "A", "A"] = false →
      runReport ["A", "B"] ["B", "A", "A"] [1] [2, 1] [1, 1] =
        Sum.inr ([2, 1].sum, [1, 1].sum)) :=
  claim_c1_passk_iff_full_coverage ["A", "B"] ["B", "A", "A"] [1] [2, 1] [1, 1]
    (by decide) (by decide)

-- Claim C2 ---------------------------------------------------------------------

/-- Modelled from the spec's words (the claim under test, for refinement
comparison): the reported `pass@k` is the average of the per-task estimates
across all eligible tasks, i.e. those with `n ≥ k`. -/
def specPassAtKValue (totals corrects : List ℕ) (k : ℕ) : Option ℚ :=
  let elig := (totals.zip corrects).filter (fun p => k ≤ p.1)
  if elig.isEmpty then none
  else some (listMean (elig.map (fun p => estimatePassAtK p.1 p.2 k)))

/-- C2 counterexample: with tasks `n = [5, 1]`, `c = [5, 1]` and `k = 2`, the
code reports no `pass@2` at all (because one task has fewer than `k`
samples), whereas the claim's average over eligible tasks would report `1`. -/
theorem claim_c2_counterexample :
    passAtKValue [5, 1] [5, 1] 2 = none ∧
    specPassAtKValue [5, 1] [5, 1] 2 = some 1 := by
  constructor
  · decide
  · simp only [specPassAtKValue, listMean, estimatePassAtK]
    norm_num

/-- C2 amended: a `pass@k` entry is reported for a requested `k` exactly when
**every** task has at least `k` samples, and its value is then the mean of
the per-task estimates over **all** tasks (which under that condition
coincides with the claim's mean over eligible tasks). -/
theorem claim_c2_amended (ks totals corrects : List ℕ) (k : ℕ) (v : ℚ) :
    ((k, v) ∈ passAtKList ks totals corrects ↔
      k ∈ ks ∧ (∀ t ∈ totals, k ≤ t) ∧
        v = listMean ((totals.zip corrects).map (fun p => estimatePassAtK p.1 p.2 k))) ∧
    (totals ≠ [] → totals.length = corrects.length → (∀ t ∈ totals, k ≤ t) →
      passAtKValue totals corrects k = specPassAtKValue totals corrects k) := by
  constructor
  · unfold passAtKList passAtKValue
    rw [List.mem_filterMap]
    constructor
    · rintro ⟨a, ha, hfa⟩
      split at hfa
      case isTrue hall =>
        simp only [Option.map_some', Option.some_inj, Prod.mk.injEq] at hfa
        obtain ⟨rfl, rfl⟩ := hfa
        refine ⟨ha, ?_, rfl⟩
        intro t ht
        have := List.all_eq_true.mp hall t ht
        exact of_decide_eq_true this
      case isFalse => simp at hfa
    · rintro ⟨hk, hall, rfl⟩
      refine ⟨k, hk, ?_⟩
      rw [if_pos ?_]
      · rfl
      · exact List.all_eq_true.mpr (fun t ht => decide_eq_true (hall t ht))
  · intro hne hlen hall
    unfold passAtKValue specPassAtKValue
    rw [if_pos (List.all_eq_true.mpr (fun t ht => decide_eq_true (hall t ht)))]
    have hfil : (totals.zip corrects).filter (fun p => k ≤ p.1) = totals.zip corrects := by
      apply List.filter_eq_self.mpr
      intro p hp
      exact decide_eq_true (hall p.1 (List.mem_zip hp).1)
    rw [hfil]
    rw [if_neg ?_]
    intro hemp
    rw [List.isEmpty_iff] at hemp
    have h0 := congrArg List.length hemp
    rw [List.length_zip] at h0
    simp only [List.length_nil] at h0
    rw [← hlen] at h0
    simp only [Nat.min_self] at h0
    exact hne (List.length_eq_zero.mp h0)

/-- Witness for C2 amended: discharged at a concrete run. -/
theorem claim_c2_witness :
    (((1 : ℕ), (1 : ℚ)/2) ∈ passAtKList [1, 10] [3, 3] [2, 0] ↔
      (1 : ℕ) ∈ [1, 10] ∧ (∀ t ∈ [3, 3], 1 ≤ t) ∧
        (1 : ℚ)/2 = listMean (([3, 3].zip [2, 0]).map
          (fun p => estimatePassAtK p.1 p.2 1))) ∧
    ([3, 3] ≠ ([] : List ℕ) → ([3, 3] : List ℕ).length = ([2, 0] : List ℕ).length →
      (∀ t ∈ [3, 3], 1 ≤ t) →
      passAtKValue [3, 3] [2, 0] 1 = specPassAtKValue [3, 3] [2, 0] 1) :=
  claim_c2_amended [1, 10] [3, 3] [2, 0] 1 ((1 : ℚ)/2)

-- Claim C3 ---------------------------------------------------------------------

lemma assignIds_implicit (cnt : String → ℕ) (samples : List (String × Option ℕ))
    (h : ∀ s ∈ samples, s.2 = none) :
    (∀ t, (assignIds cnt samples).filterMap
        (fun p => if p.1 = t then some p.2 else none) =
      List.range' (cnt t) (samples.countP (fun s => decide (s.1 = t)))) ∧
    (assignIds cnt samples).Nodup := by
  induction samples generalizing cnt with
  | nil => exact ⟨fun t => by simp [assignIds], by simp [assignIds]⟩
  | cons s rest ih =>
    obtain ⟨t₀, ex⟩ := s
    have hex : ex = none := h _ (List.mem_cons_self _ _)
    subst hex
    have ih' := ih (fun u => if u = t₀ then cnt t₀ + 1 else cnt u)
      (fun s hs => h s (List.mem_cons_of_mem _ hs))
    have hstep : assignIds cnt ((t₀, none) :: rest) =
        (t₀, cnt t₀) :: assignIds (fun u => if u = t₀ then cnt t₀ + 1 else cnt u) rest := rfl
    constructor
    · intro t
      rw [hstep, List.filterMap_cons]
      by_cases ht : t₀ = t
      · subst ht
        have h1 := ih'.1 t₀
        simp only [if_pos rfl] at h1
        simp [h1, List.countP_cons, List.range'_succ]
      · have ht' : ¬ (t = t₀) := fun hh => ht hh.symm
        have h1 := ih'.1 t
        simp only [if_neg ht'] at h1
        simp [ht, ht', h1, List.countP_cons]
    · rw [hstep]
      rw [List.nodup_cons]
      refine ⟨?_, ih'.2⟩
      intro hmem
      have hmm : cnt t₀ ∈ (assignIds (fun u => if u = t₀ then cnt t₀ + 1 else cnt u)
          rest).filterMap (fun p => if p.1 = t₀ then some p.2 else none) :=
        List.mem_filterMap.mpr ⟨(t₀, cnt t₀), hmem, by simp⟩
      rw [ih'.1 t₀] at hmm
      rw [List.mem_range'_1] at hmm
      simp only [if_pos rfl, if_true] at hmm
      omega

/-- C3 counterexample: two samples for the same task both carrying the
explicit `completion_id` 0 yield two Execution Results with the same
`(task_id, completion_id)` pair, so the uniqueness invariant fails when
caller-supplied ids are present. -/
theorem claim_c3_counterexample :
    ¬ (assignIds (fun _ => 0) [("PyTask", some 0), ("PyTask", some 0)]).Nodup := by
  decide

/-- The per-task contiguity fact: a task all of whose own samples carry no
explicit `completion_id` receives the ids `cnt t, cnt t + 1, …` in submission
order, regardless of explicit ids carried by samples of other tasks (the
`Counter` is per task). -/
lemma assignIds_task_range (cnt : String → ℕ) (samples : List (String × Option ℕ))
    (t : String) (h : ∀ s ∈ samples, s.1 = t → s.2 = none) :
    (assignIds cnt samples).filterMap (fun p => if p.1 = t then some p.2 else none) =
      List.range' (cnt t) (samples.countP (fun s => decide (s.1 = t))) := by
  induction samples generalizing cnt with
  | nil => simp [assignIds]
  | cons s rest ih =>
    obtain ⟨t₀, ex⟩ := s
    have ih' := ih (fun u => if u = t₀ then cnt t₀ + 1 else cnt u)
      (fun s hs hst => h s (List.mem_cons_of_mem _ hs) hst)
    by_cases ht : t₀ = t
    · subst ht
      have hex : ex = none := h _ (List.mem_cons_self _ _) rfl
      subst hex
      have hstep : assignIds cnt ((t₀, none) :: rest) =
          (t₀, cnt t₀) :: assignIds (fun u => if u = t₀ then cnt t₀ + 1 else cnt u) rest := rfl
      rw [hstep, List.filterMap_cons]
      simp only [if_pos rfl] at ih'
      simp [ih', List.countP_cons, List.range'_succ]
    · have ht' : ¬ (t = t₀) := fun hh => ht hh.symm
      have hstep : assignIds cnt ((t₀, ex) :: rest) =
          (t₀, ex.getD (cnt t₀)) :: assignIds (fun u => if u = t₀ then cnt t₀ + 1 else cnt u)
            rest := rfl
      rw [hstep, List.filterMap_cons]
      simp only [if_neg ht'] at ih'
      simp [ht, ht', ih', List.countP_cons]

/-- C3 amended: for any task all of whose samples carry no explicit
`completion_id`, the assigned ids form the contiguous range `0, 1, …` in
submission order — even when samples of other tasks carry explicit ids; and
provided no sample in the run carries an explicit `completion_id`, the
assigned `(task_id, completion_id)` pairs are pairwise distinct.  (Explicit
caller-supplied ids are used verbatim and may collide.) -/
theorem claim_c3_amended (samples : List (String × Option ℕ)) :
    (∀ t, (∀ s ∈ samples, s.1 = t → s.2 = none) →
      (assignIds (fun _ => 0) samples).filterMap
          (fun p => if p.1 = t then some p.2 else none) =
        List.range (samples.countP (fun s => decide (s.1 = t)))) ∧
    ((∀ s ∈ samples, s.2 = none) → (assignIds (fun _ => 0) samples).Nodup) := by
  constructor
  · intro t ht
    rw [assignIds_task_range (fun _ => 0) samples t ht, List.range_eq_range']
  · intro h
    exact (assignIds_implicit (fun _ => 0) samples h).2

/-- Witness for C3 amended: contiguity of task `A` holds even though task
`B` carries an explicit id, and uniqueness holds on an all-implicit run. -/
theorem claim_c3_witness :
    (assignIds (fun _ => 0) [("A", none), ("B", some 7), ("A", none)]).filterMap
        (fun p => if p.1 = "A" then some p.2 else none) =
      List.range ([("A", (none : Option ℕ)), ("B", some 7), ("A", none)].countP
        (fun s => decide (s.1 = "A"))) ∧
    (assignIds (fun _ => 0) [("C", (none : Option ℕ)), ("C", none)]).Nodup :=
  ⟨(claim_c3_amended _).1 "A" (by decide),
   (claim_c3_amended _).2 (by decide)⟩

-- Claim C8 ---------------------------------------------------------------------

lemma lookup_some_key_mem {α β : Type} [BEq α] [LawfulBEq α]
    (l : List (α × β)) (a : α) (v : β) (h : l.lookup a = some v) :
    a ∈ l.map Prod.fst := by
  induction l with
  | nil => simp [List.lookup] at h
  | cons p rest ih =>
    rw [List.lookup] at h
    split at h
    next heq => simp [eq_of_beq heq]
    next => exact List.mem_cons_of_mem _ (ih h)

/-- Every non-`none` result of `_extract_translation_target` is a recognized
`LANGUAGE_NAME` key, so the in-loop substring fallback of lines 297-301 never
has anything to repair. -/
lemma extractTranslationTarget_mem_keys (path t : String)
    (h : extractTranslationTarget path = some t) : t ∈ languageKeys := by
  unfold extractTranslationTarget at h
  cases hscan : scanToTok (pyLower path).data with
  | none => rw [hscan] at h; exact absurd h (by simp)
  | some rawL =>
    rw [hscan] at h
    simp only at h
    cases hlk : translationAlias.lookup ⟨rawL⟩ with
    | some v =>
      rw [hlk] at h
      obtain ⟨k, hk⟩ := lookup_mem_pairs _ _ _ hlk
      have hall : ∀ p ∈ translationAlias, p.2 ∈ languageKeys := by decide
      have hv := hall _ hk
      simp only [Option.some_inj] at h
      rw [← h]
      exact hv
    | none =>
      rw [hlk] at h
      cases hfind : translationCands.find? (fun cand => strIn cand ⟨rawL⟩) with
      | none => rw [hfind] at h; exact absurd h (by simp)
      | some cand =>
        rw [hfind] at h
        have hmem := List.mem_of_find?_eq_some hfind
        have hall : ∀ c ∈ translationCands,
            ((translationAlias.lookup c).getD c) ∈ languageKeys := by decide
        simp only [Option.some_inj] at h
        rw [← h]
        exact hall _ hmem

lemma resolvedLang_of_mem (task t : String) (ht : t ∈ languageKeys) :
    resolvedLang task (some t) = Except.ok t := by
  unfold resolvedLang resolveSampleLang
  have hc : languageKeys.contains t = true := by simpa using ht
  have hlook : ∀ x ∈ languageKeys, (languageName.lookup x).isSome = true := by decide
  obtain ⟨nm, hnm⟩ := Option.isSome_iff_exists.mp (hlook t ht)
  have hnjs : t ≠ "javascript" := by
    have hnj : "javascript" ∉ languageKeys := by decide
    exact fun hh => hnj (hh ▸ ht)
  simp [ht, hnm, hnjs, Except.map, pure, Except.pure, bind, Except.bind]

lemma resolvedLang_fallback (task u : String) (hu : u ∉ languageKeys) :
    resolvedLang task (some u) =
      match languageKeys.find? (fun l => strIn l u) with
      | some l => Except.ok l
      | none => Except.error (PyErr.keyError u) := by
  unfold resolvedLang resolveSampleLang
  have hc : languageKeys.contains u = false := by
    have hne : ¬ (languageKeys.contains u = true) := fun hh => hu (by simpa using hh)
    simpa using hne
  cases hfind : languageKeys.find? (fun l => strIn l u) with
  | some l =>
    have hl := List.mem_of_find?_eq_some hfind
    have hlook : ∀ x ∈ languageKeys, (languageName.lookup x).isSome = true := by decide
    obtain ⟨nm, hnm⟩ := Option.isSome_iff_exists.mp (hlook l hl)
    have hnjs : l ≠ "javascript" := by
      have hnj : "javascript" ∉ languageKeys := by decide
      exact fun hh => hnj (hh ▸ hl)
    simp [hu, hfind, hnm, hnjs, Except.map, pure, Except.pure, bind, Except.bind]
  | none =>
    cases hlk : languageName.lookup u with
    | some v =>
      exfalso
      exact hu (lookup_some_key_mem _ _ _ hlk)
    | none => simp [hu, hfind, hlk, Except.map]

/-- C8: in translation mode the execution language comes from the
path-encoded target token: every parsed token is already a recognized
language key, the resolved language equals that token regardless of the task
id's language segment, and for a hypothetical unrecognized token the code
substring-matches it against the known language keys (in key order). -/
theorem claim_c8_translation_lang (path t task₁ task₂ : String)
    (h : extractTranslationTarget path = some t) :
    t ∈ languageKeys ∧
    resolvedLang task₁ (some t) = Except.ok t ∧
    resolvedLang task₁ (some t) = resolvedLang task₂ (some t) ∧
    (∀ u task, u ∉ languageKeys →
      resolvedLang task (some u) =
        match languageKeys.find? (fun l => strIn l u) with
        | some l => Except.ok l
        | none => Except.error (PyErr.keyError u)) := by
  have hks := extractTranslationTarget_mem_keys path t h
  refine ⟨hks, resolvedLang_of_mem task₁ t hks, ?_, ?_⟩
  · rw [resolvedLang_of_mem task₁ t hks, resolvedLang_of_mem task₂ t hks]
  · intro u task hu
    exact resolvedLang_fallback task u hu

/-- Witness for C8 at a concrete translation-output path and two different
task ids. -/
theorem claim_c8_witness :
    "go" ∈ languageKeys ∧
    resolvedLang "Python/3" (some "go") = Except.ok "go" ∧
    resolvedLang "Python/3" (some "go") = resolvedLang "X/9" (some "go") :=
  ⟨(claim_c8_translation_lang "results-python-to-go-x.jsonl" "go" "Python/3" "X/9"
      (by decide)).1,
   (claim_c8_translation_lang "results-python-to-go-x.jsonl" "go" "Python/3" "X/9"
      (by decide)).2.1,
   (claim_c8_translation_lang "results-python-to-go-x.jsonl" "go" "Python/3" "X/9"
      (by decide)).2.2.1⟩

-- Claim C9 ---------------------------------------------------------------------

lemma toFixed6_ne_empty (q : ℚ) : toFixed6 q ≠ "" := by
  unfold toFixed6
  intro h
  have h2 := congrArg String.data h
  simp [String.data_append] at h2

/-- C9: every run emits exactly one line to standard output — the CSV summary
row, which is the comma-join of the inferred language key, the input
identifier, and the three metric fields; a metric field is blank exactly when
that `pass@k` was not computed, and a computed metric always carries six
fractional digits.  All diagnostics go to the stderr channel. -/
theorem claim_c9_summary_line (exampleTest groundTruth : Bool)
    (problemIds sampleTasks : List String) (counterRepr : String)
    (ks totals corrects : List ℕ) (outFile : String)
    (problemFile inputFile : Option String) :
    ((runTrace exampleTest groundTruth problemIds sampleTasks counterRepr ks totals
        corrects outFile problemFile inputFile).filter
      (fun e => e.1 = Chan.stdout)) =
      [(Chan.stdout, csvLine problemFile inputFile
        (if coverageDecision problemIds sampleTasks then passAtKList ks totals corrects
         else []))] ∧
    (∀ pf inf pak, csvLine pf inf pak =
      String.intercalate ","
        [((langFromProblemFile pf).getD ""), inf.getD "",
         fmtMetric (pak.lookup 1), fmtMetric (pak.lookup 10),
         fmtMetric (pak.lookup 100)]) ∧
    (∀ o : Option ℚ, fmtMetric o = "" ↔ o = none) ∧
    (∀ q : ℚ, ∃ ip frac, fmtMetric (some q) = ip ++ "." ++ frac ∧ frac.length = 6) := by
  refine ⟨?_, fun pf inf pak => rfl, ?_, fun q => ⟨_, _, rfl, rfl⟩⟩
  · cases exampleTest <;> cases groundTruth <;>
      cases hcov : coverageDecision problemIds sampleTasks <;>
        simp [runTrace, hcov]
  · intro o
    cases o with
    | none => simp [fmtMetric]
    | some q =>
      simp only [fmtMetric]
      constructor
      · intro hq
        exact absurd hq (toFixed6_ne_empty q)
      · intro hq
        simp at hq

-- Claim C4 ---------------------------------------------------------------------

/-- The `for`/`break` loop of the Python branch keeps exactly the maximal
prefix of lines on which the stop condition is false, and stops at the first
line that is non-empty and not indented. -/
lemma pythonTruncLoop_spec (ls : List (List Char)) :
    ∃ rest, ls = pythonTruncLoop ls ++ rest ∧
      (∀ l ∈ pythonTruncLoop ls, pythonStopLine l = false) ∧
      (rest = [] ∨ ∃ l ls', rest = l :: ls' ∧ pythonStopLine l = true) := by
  induction ls with
  | nil => exact ⟨[], rfl, by simp [pythonTruncLoop], Or.inl rfl⟩
  | cons l ls ih =>
    by_cases hl : pythonStopLine l
    · refine ⟨l :: ls, ?_, ?_, Or.inr ⟨l, ls, rfl, hl⟩⟩
      · simp [pythonTruncLoop, hl]
      · simp [pythonTruncLoop, hl]
    · obtain ⟨rest, h1, h2, h3⟩ := ih
      refine ⟨rest, ?_, ?_, h3⟩
      · simp only [pythonTruncLoop, if_neg hl]
        rw [List.cons_append, ← h1]
      · intro x hx
        simp only [pythonTruncLoop, if_neg hl] at hx
        rcases List.mem_cons.mp hx with rfl | hx
        · simpa using hl
        · exact h2 x hx

/-- C4: for a Python sample the assembler splits the generated code into
lines, keeps the maximal prefix of lines that are empty or indented
(truncating at the first non-empty non-indented line), prepends the fixed
standard-library import list, and returns imports ++ declaration ++
truncated code ++ test body. -/
theorem claim_c4_python_assembly (p : PyProblem) (decl code test : String)
    (hp : p.test = some test) :
    ∃ kept rest,
      pySplitL "\n".data code.data = kept ++ rest ∧
      (∀ l ∈ kept, pythonStopLine l = false) ∧
      (rest = [] ∨ ∃ l ls', rest = l :: ls' ∧ pythonStopLine l = true) ∧
      processHumanevalTest ⟨"Python/0", some decl, some code⟩
          (fun t => if t = "Python/0" then some p else none) false =
        Except.ok (pyJoin "\n" importHelperPython ++ "\n" ++ pyLstrip decl ++
          (⟨pyJoinL "\n".data kept⟩ : String) ++ "\n" ++ test ++ "\n") := by
  obtain ⟨rest, h1, h2, h3⟩ := pythonTruncLoop_spec (pySplitL "\n".data code.data)
  refine ⟨pythonTruncLoop (pySplitL "\n".data code.data), rest, h1, h2, h3, ?_⟩
  obtain ⟨pd, pt, pe, pi, ps, pc⟩ := p
  have hp' : pt = some test := hp
  subst hp'
  rfl

/-- Witness for C4 at a concrete problem and generation. -/
theorem claim_c4_witness :
    ∃ kept rest,
      pySplitL "\n".data "    return x\nprint(1)".data = kept ++ rest ∧
      (∀ l ∈ kept, pythonStopLine l = false) ∧
      (rest = [] ∨ ∃ l ls', rest = l :: ls' ∧ pythonStopLine l = true) ∧
      processHumanevalTest ⟨"Python/0", some "def f(x):\n", some "    return x\nprint(1)"⟩
          (fun t => if t = "Python/0" then some { test := some "assert f(1) == 1" } else none)
          false =
        Except.ok (pyJoin "\n" importHelperPython ++ "\n" ++ pyLstrip "def f(x):\n" ++
          (⟨pyJoinL "\n".data kept⟩ : String) ++ "\n" ++ "assert f(1) == 1" ++ "\n") :=
  claim_c4_python_assembly { test := some "assert f(1) == 1" } "def f(x):\n"
    "    return x\nprint(1)" "assert f(1) == 1" rfl

-- Claim C6 ---------------------------------------------------------------------

/-- A concrete Go problem whose `example_test` field is present but EMPTY and
whose hidden test is `"FOOBARBAZ"`. -/
def c6Problems : Problems := fun t =>
  if t = "Go/0" then
    some { test := some "FOOBARBAZ",
           exampleTest := some "",
           importLine := some "",
           testSetup := some "package main\n" }
  else none

/-- The sample used in the C6 counterexample. -/
def c6Sample : PySample :=
  { taskId := "Go/0", declaration := some "func F() int \x7b return 1 \x7d\n",
    generation := some "" }

/-- C6 counterexample: for a Go sample with the example-test flag set and an
example test present but EMPTY, the code uses the (empty) example test
instead of the hidden test — the output differs from the flag-unset run that
uses the hidden test, contradicting the claim that in every such case the
hidden test body is used. -/
theorem claim_c6_counterexample :
    processHumanevalTest c6Sample c6Problems true ≠
      processHumanevalTest c6Sample c6Problems false := by
  intro h
  exact absurd (congrArg Except.toOption h) (by decide)

/-- C6 amended: for every non-Go language the example test is used exactly
when the flag is set and the field is present and non-empty — in every
other case the run is identical to the hidden-test run (parts 1-2), and in
exactly that case the flagged run equals the unflagged run on the problem
with the example test substituted for the hidden test (part 4, the positive
direction); for Go the non-emptiness check is missing — the example test is
used whenever the flag is set and the field is present (even when empty),
and when it is present the flagged run equals the unflagged run on the
problem with the example substituted for the hidden test (part 3). -/
theorem claim_c6_amended (sample : PySample) (problems : Problems) (flag : Bool) :
    (pyLower (pySeg0 sample.taskId "/") ≠ "go" →
      (flag = false ∨ ∀ p, problems sample.taskId = some p →
        ∀ e, p.exampleTest = some e → e = "") →
      processHumanevalTest sample problems flag =
        processHumanevalTest sample problems false) ∧
    (pyLower (pySeg0 sample.taskId "/") = "go" →
      (flag = false ∨ ∀ p, problems sample.taskId = some p → p.exampleTest = none) →
      processHumanevalTest sample problems flag =
        processHumanevalTest sample problems false) ∧
    (pyLower (pySeg0 sample.taskId "/") = "go" →
      ∀ p e hid, problems sample.taskId = some p → p.exampleTest = some e →
        p.test = some hid →
        processHumanevalTest sample problems true =
          processHumanevalTest sample
            (fun u => if u = sample.taskId then some { p with test := some e }
                      else problems u) false) ∧
    (pyLower (pySeg0 sample.taskId "/") ≠ "go" →
      ∀ p e, problems sample.taskId = some p → p.exampleTest = some e → e ≠ "" →
        processHumanevalTest sample problems true =
          processHumanevalTest sample
            (fun u => if u = sample.taskId then some { p with test := some e }
                      else problems u) false) := by
  refine ⟨?_, ?_, ?_, ?_⟩
  · intro hlang hno
    rcases hno with rfl | hno
    · rfl
    cases flag
    · rfl
    have hsel : selectTest problems sample.taskId true =
        selectTest problems sample.taskId false := by
      unfold selectTest
      cases hpp : problems sample.taskId with
      | none => simp [getTestField, hpp]
      | some p =>
        cases hpe : p.exampleTest with
        | none => simp [hpe]
        | some e =>
          have he : e = "" := hno p hpp e hpe
          subst he
          simp [hpe]
    dsimp only [processHumanevalTest]
    rw [hsel]
    cases hres : selectTest problems sample.taskId false with
    | error e => rfl
    | ok test =>
      cases hgen : sample.generation with
      | none => rfl
      | some code =>
        simp only [bind, Except.bind, pure]
        simp [hlang]
  · intro hlang hno
    rcases hno with rfl | hno
    · rfl
    cases flag
    · rfl
    have hsel : selectTest problems sample.taskId true =
        selectTest problems sample.taskId false := by
      unfold selectTest
      cases hpp : problems sample.taskId with
      | none => simp [getTestField, hpp]
      | some p =>
        have hpe := hno p hpp
        simp [hpe]
    dsimp only [processHumanevalTest]
    rw [hsel]
    cases hres : selectTest problems sample.taskId false with
    | error e => rfl
    | ok test =>
      cases hgen : sample.generation with
      | none => rfl
      | some code =>
        simp only [bind, Except.bind, pure]
        have hchain : processGoBranch problems sample.taskId true
            (pyLstrip ((sample.declaration).getD
              (match problems sample.taskId with
               | some p => p.declaration.getD ""
               | none => ""))) code =
          processGoBranch problems sample.taskId false
            (pyLstrip ((sample.declaration).getD
              (match problems sample.taskId with
               | some p => p.declaration.getD ""
               | none => ""))) code := by
          unfold processGoBranch
          cases hpp : problems sample.taskId with
          | none => simp [getProblem, hpp, bind, Except.bind]
          | some p =>
            have hpe := hno p hpp
            simp [getProblem, hpp, goSelectTest, hpe, bind, Except.bind]
        simp [hlang, hchain, Except.pure]
  · intro hlang p e hid hpp hpe hpt
    have hselL : selectTest problems sample.taskId true =
        Except.ok (if e ≠ "" then e else hid) := by
      unfold selectTest
      simp only [hpp, hpe]
      by_cases he : e = ""
      · simp [he, getTestField, hpp, hpt]
      · simp [he, pure, Except.pure]
    have hselR : selectTest
        (fun u => if u = sample.taskId then some { p with test := some e }
         else problems u) sample.taskId false =
        Except.ok e := by
      unfold selectTest getTestField
      simp [pure, Except.pure]
    have hchain : ∀ d c, processGoBranch problems sample.taskId true d c =
        processGoBranch
          (fun u => if u = sample.taskId then some { p with test := some e }
           else problems u) sample.taskId false d c := by
      intro d c
      unfold processGoBranch
      simp only [getProblem, hpp]
      simp only [bind, Except.bind]
      simp [goSelectTest, hpe, getTestField, hpp, bind, Except.bind, pure, Except.pure]
    dsimp only [processHumanevalTest]
    rw [hselL, hselR]
    cases hgen : sample.generation with
    | none => rfl
    | some code =>
      simp [hlang, hpp, hchain, bind, Except.bind, pure, Except.pure]
  · intro hlang p e hpp hpe hne
    have hselL : selectTest problems sample.taskId true = Except.ok e := by
      unfold selectTest
      simp only [hpp, hpe]
      simp [hne, pure, Except.pure]
    have hselR : selectTest
        (fun u => if u = sample.taskId then some { p with test := some e }
         else problems u) sample.taskId false =
        Except.ok e := by
      unfold selectTest getTestField
      simp [pure, Except.pure]
    dsimp only [processHumanevalTest]
    rw [hselL, hselR]
    cases hgen : sample.generation with
    | none => rfl
    | some code =>
      have hrust : processRustBranch problems sample.taskId code e =
          processRustBranch
            (fun u => if u = sample.taskId then some { p with test := some e }
             else problems u) sample.taskId code e := by
        unfold processRustBranch
        simp [getProblem, hpp, bind, Except.bind, pure, Except.pure]
      simp [hlang, hpp, hrust, bind, Except.bind, pure, Except.pure]

/-- Witness for C6 amended, discharged at a concrete non-Go input. -/
theorem claim_c6_witness :
    processHumanevalTest ⟨"Java/0", some "class A \x7b", some "\x7d"⟩
        (fun t => if t = "Java/0" then some { test := some "T" } else none) true =
      processHumanevalTest ⟨"Java/0", some "class A \x7b", some "\x7d"⟩
        (fun t => if t = "Java/0" then some { test := some "T" } else none) false :=
  (claim_c6_amended ⟨"Java/0", some "class A \x7b", some "\x7d"⟩
      (fun t => if t = "Java/0" then some { test := some "T" } else none) true).1
    (by decide) (Or.inr (by intro p hp e he
                            rw [if_pos rfl] at hp
                            cases hp
                            cases he))

-- Claim C7 ---------------------------------------------------------------------

/-- The task-id language tokens the assembler's branch chain accepts. -/
def supportedLang (l : String) : Prop :=
  l = "python" ∨ l = "cpp" ∨ l = "java" ∨ l = "js" ∨ l = "javascript" ∨
    l = "go" ∨ l = "rust"

instance (l : String) : Decidable (supportedLang l) := by
  unfold supportedLang
  infer_instance

/-- All problem/sample fields `process_humaneval_test` dereferences for the
given sample and flag are present. -/
def fieldsPresent (sample : PySample) (problems : Problems) (flag : Bool) : Prop :=
  ∃ p, problems sample.taskId = some p ∧ sample.generation.isSome = true ∧
    ((flag = true ∧ ∃ e, p.exampleTest = some e ∧ e ≠ "") ∨ p.test.isSome = true) ∧
    (pyLower (pySeg0 sample.taskId "/") = "go" →
      p.importLine.isSome = true ∧ p.testSetup.isSome = true) ∧
    (pyLower (pySeg0 sample.taskId "/") = "rust" → p.declaration.isSome = true)

/-- Whether an assembler result is a returned source text. -/
def resultIsOk (r : Except PyErr String) : Bool :=
  match r with
  | .ok _ => true
  | .error _ => false

lemma selectTest_ok_of_present (problems : Problems) (taskId : String) (flag : Bool)
    (p : PyProblem) (hpp : problems taskId = some p)
    (htest : (flag = true ∧ ∃ e, p.exampleTest = some e ∧ e ≠ "") ∨ p.test.isSome = true) :
    ∃ t, selectTest problems taskId flag = Except.ok t := by
  unfold selectTest
  cases flag with
  | false =>
    rcases htest with ⟨hfl, _⟩ | htest
    · cases hfl
    obtain ⟨t, ht⟩ := Option.isSome_iff_exists.mp htest
    exact ⟨t, by simp [getTestField, hpp, ht, pure, Except.pure]⟩
  | true =>
    simp only [hpp, if_pos rfl]
    cases hpe : p.exampleTest with
    | some e =>
      by_cases he : e = ""
      · subst he
        rcases htest with ⟨_, e', he', hne⟩ | htest
        · rw [hpe] at he'
          cases he'
          exact absurd rfl hne
        obtain ⟨t, ht⟩ := Option.isSome_iff_exists.mp htest
        exact ⟨t, by simp [getTestField, hpp, ht, pure, Except.pure]⟩
      · exact ⟨e, by simp [he, pure, Except.pure]⟩
    | none =>
      rcases htest with ⟨_, e', he', _⟩ | htest
      · rw [hpe] at he'
        cases he'
      obtain ⟨t, ht⟩ := Option.isSome_iff_exists.mp htest
      exact ⟨t, by simp [getTestField, hpp, ht, pure, Except.pure]⟩

/-- C7 counterexample: a sample whose task id names an unsupported language
(`Kotlin/0`) makes the assembler fail with the `UnboundLocalError` of
`return test_string`, even though every referenced problem field is present —
a failure mode other than the claimed missing-field data-integrity error. -/
theorem claim_c7_counterexample :
    processHumanevalTest ⟨"Kotlin/0", some "", some "code"⟩
      (fun t => if t = "Kotlin/0" then
        some { declaration := some "D", test := some "T", exampleTest := some "E",
               importLine := some "I", testSetup := some "S",
               canonicalSolution := some "C" }
       else none) false = Except.error PyErr.unboundLocalError := by
  decide

lemma getTestField_error_keyError (problems : Problems) (t : String) (e : PyErr)
    (h : getTestField problems t = .error e) : ∃ k, e = PyErr.keyError k := by
  unfold getTestField at h
  cases hpp : problems t with
  | none =>
    rw [hpp] at h
    exact ⟨t, (Except.error.inj h).symm⟩
  | some p =>
    rw [hpp] at h
    dsimp only at h
    cases hpt : p.test with
    | some s => rw [hpt] at h; simp at h
    | none =>
      rw [hpt] at h
      exact ⟨"test", (Except.error.inj h).symm⟩

lemma selectTest_error_keyError (problems : Problems) (t : String) (flag : Bool)
    (e : PyErr) (h : selectTest problems t flag = .error e) :
    ∃ k, e = PyErr.keyError k := by
  unfold selectTest at h
  cases flag with
  | false => exact getTestField_error_keyError problems t e h
  | true =>
    cases hpp : problems t with
    | none =>
      rw [hpp] at h
      exact ⟨t, (Except.error.inj h).symm⟩
    | some p =>
      rw [hpp] at h
      dsimp only at h
      cases hpe : p.exampleTest with
      | some ex =>
        rw [hpe] at h
        dsimp only at h
        by_cases he : ex = ""
        · rw [if_neg (fun hh : ex ≠ "" => hh he)] at h
          exact getTestField_error_keyError problems t e h
        · rw [if_pos he] at h
          simp [pure, Except.pure] at h
      | none =>
        rw [hpe] at h
        exact getTestField_error_keyError problems t e h

lemma goSelectTest_error_keyError (p : PyProblem) (problems : Problems) (t : String)
    (flag : Bool) (e : PyErr) (h : goSelectTest p problems t flag = .error e) :
    ∃ k, e = PyErr.keyError k := by
  unfold goSelectTest at h
  cases flag with
  | false => exact getTestField_error_keyError problems t e h
  | true =>
    cases hpe : p.exampleTest with
    | some ex =>
      rw [hpe] at h
      simp [pure, Except.pure] at h
    | none =>
      rw [hpe] at h
      exact getTestField_error_keyError problems t e h

/-- A successful first test selection already certifies the test-field
disjunct of `fieldsPresent`. -/
lemma selectTest_ok_testdisj (problems : Problems) (t : String) (flag : Bool)
    (p : PyProblem) (u : String) (hpp : problems t = some p)
    (h : selectTest problems t flag = .ok u) :
    (flag = true ∧ ∃ e, p.exampleTest = some e ∧ e ≠ "") ∨ p.test.isSome = true := by
  unfold selectTest at h
  cases flag with
  | false =>
    right
    unfold getTestField at h
    rw [hpp] at h
    dsimp only at h
    cases hpt : p.test with
    | some s => simp [hpt]
    | none => rw [hpt] at h; simp at h
  | true =>
    rw [hpp] at h
    dsimp only at h
    cases hpe : p.exampleTest with
    | some ex =>
      rw [hpe] at h
      dsimp only at h
      by_cases he : ex = ""
      · right
        rw [if_neg (fun hh : ex ≠ "" => hh he)] at h
        unfold getTestField at h
        rw [hpp] at h
        dsimp only at h
        cases hpt : p.test with
        | some s => simp [hpt]
        | none => rw [hpt] at h; simp at h
      · exact Or.inl ⟨rfl, ex, rfl, he⟩
    | none =>
      right
      rw [hpe] at h
      unfold getTestField at h
      rw [hpp] at h
      dsimp only at h
      cases hpt : p.test with
      | some s => simp [hpt]
      | none => rw [hpt] at h; simp at h

/-- C7 amended: the assembler (a pure function in this model) returns a
source text whenever the task id's language is one of the six supported
tokens and every referenced field is present; for a supported language with
some referenced field missing it fails with a `KeyError` (a missing-field
data-integrity error); and when the language is unsupported it never
returns a source text — with all referenced fields present it fails with
`UnboundLocalError`, not a data-integrity error. -/
theorem claim_c7_amended (sample : PySample) (problems : Problems) (flag : Bool) :
    (supportedLang (pyLower (pySeg0 sample.taskId "/")) →
      fieldsPresent sample problems flag →
      resultIsOk (processHumanevalTest sample problems flag) = true) ∧
    (supportedLang (pyLower (pySeg0 sample.taskId "/")) →
      ¬ fieldsPresent sample problems flag →
      ∃ k, processHumanevalTest sample problems flag =
        Except.error (PyErr.keyError k)) ∧
    (¬ supportedLang (pyLower (pySeg0 sample.taskId "/")) →
      resultIsOk (processHumanevalTest sample problems flag) = false ∧
      (fieldsPresent sample problems flag →
        processHumanevalTest sample problems flag =
          Except.error PyErr.unboundLocalError)) := by
  refine ⟨?_, ?_, ?_⟩
  · rintro hsup ⟨p, hpp, hgen, htest, hgo, hrust⟩
    obtain ⟨code, hcode⟩ := Option.isSome_iff_exists.mp hgen
    obtain ⟨t, hsel⟩ := selectTest_ok_of_present problems sample.taskId flag p hpp htest
    dsimp only [processHumanevalTest]
    rw [hsel, hcode]
    rcases hsup with hl | hl | hl | hl | hl | hl | hl
    · simp [hl, bind, Except.bind, pure, Except.pure, resultIsOk]
    · simp [hl, bind, Except.bind, pure, Except.pure, resultIsOk]
    · simp [hl, bind, Except.bind, pure, Except.pure, resultIsOk]
    · simp [hl, bind, Except.bind, pure, Except.pure, resultIsOk]
    · simp [hl, bind, Except.bind, pure, Except.pure, resultIsOk]
    · -- go
      obtain ⟨him, hts⟩ := hgo hl
      obtain ⟨imp, himp⟩ := Option.isSome_iff_exists.mp him
      obtain ⟨ts, hts'⟩ := Option.isSome_iff_exists.mp hts
      have hgsel : ∃ u, goSelectTest p problems sample.taskId flag = Except.ok u := by
        unfold goSelectTest
        cases flag with
        | false =>
          rcases htest with ⟨hfl, _⟩ | htest
          · cases hfl
          obtain ⟨t', ht'⟩ := Option.isSome_iff_exists.mp htest
          exact ⟨t', by simp [getTestField, hpp, ht', pure, Except.pure]⟩
        | true =>
          cases hpe : p.exampleTest with
          | some e => exact ⟨e, by simp [pure, Except.pure]⟩
          | none =>
            rcases htest with ⟨_, e', he', _⟩ | htest
            · rw [hpe] at he'
              cases he'
            obtain ⟨t', ht'⟩ := Option.isSome_iff_exists.mp htest
            exact ⟨t', by simp [getTestField, hpp, ht', pure, Except.pure]⟩
      obtain ⟨u, hgsel⟩ := hgsel
      simp only [hl, bind, Except.bind, pure, Except.pure]
      simp [processGoBranch, getProblem, hpp, himp, hgsel, hts',
        bind, Except.bind, pure, Except.pure, resultIsOk, apply_ite resultIsOk]
      split
      all_goals first
      | rfl
      | (rename_i heq
         split at heq <;> cases heq)
    · -- rust
      obtain ⟨d, hd⟩ := Option.isSome_iff_exists.mp (hrust hl)
      simp only [hl, bind, Except.bind, pure, Except.pure]
      simp [processRustBranch, getProblem, hpp, hd,
        bind, Except.bind, pure, Except.pure, resultIsOk]
  · intro hsup hnp
    dsimp only [processHumanevalTest]
    cases hsel : selectTest problems sample.taskId flag with
    | error e =>
      obtain ⟨k, rfl⟩ := selectTest_error_keyError problems sample.taskId flag e hsel
      exact ⟨k, by simp [bind, Except.bind]⟩
    | ok u =>
      cases hpp : problems sample.taskId with
      | none =>
        exfalso
        unfold selectTest getTestField at hsel
        cases flag <;> rw [hpp] at hsel <;> simp at hsel
      | some p =>
        have htd := selectTest_ok_testdisj problems sample.taskId flag p u hpp hsel
        cases hgen : sample.generation with
        | none => exact ⟨"generation", by simp [bind, Except.bind]⟩
        | some code =>
          rcases hsup with hl | hl | hl | hl | hl | hl | hl
          · exact absurd ⟨p, hpp, by rw [hgen]; rfl, htd,
              by intro hh; rw [hl] at hh; exact absurd hh (by decide),
              by intro hh; rw [hl] at hh; exact absurd hh (by decide)⟩ hnp
          · exact absurd ⟨p, hpp, by rw [hgen]; rfl, htd,
              by intro hh; rw [hl] at hh; exact absurd hh (by decide),
              by intro hh; rw [hl] at hh; exact absurd hh (by decide)⟩ hnp
          · exact absurd ⟨p, hpp, by rw [hgen]; rfl, htd,
              by intro hh; rw [hl] at hh; exact absurd hh (by decide),
              by intro hh; rw [hl] at hh; exact absurd hh (by decide)⟩ hnp
          · exact absurd ⟨p, hpp, by rw [hgen]; rfl, htd,
              by intro hh; rw [hl] at hh; exact absurd hh (by decide),
              by intro hh; rw [hl] at hh; exact absurd hh (by decide)⟩ hnp
          · exact absurd ⟨p, hpp, by rw [hgen]; rfl, htd,
              by intro hh; rw [hl] at hh; exact absurd hh (by decide),
              by intro hh; rw [hl] at hh; exact absurd hh (by decide)⟩ hnp
          · -- go: a missing field must be "import" or "test_setup"
            cases himp : p.importLine with
            | none =>
              refine ⟨"import", ?_⟩
              simp only [hl, bind, Except.bind, pure, Except.pure]
              simp [processGoBranch, getProblem, hpp, himp, bind, Except.bind]
            | some imp =>
              cases hts : p.testSetup with
              | some ts =>
                exact absurd ⟨p, hpp, by rw [hgen]; rfl, htd,
                  fun _ => ⟨by rw [himp]; rfl, by rw [hts]; rfl⟩,
                  by intro hh; rw [hl] at hh; exact absurd hh (by decide)⟩ hnp
              | none =>
                cases hg : goSelectTest p problems sample.taskId flag with
                | error e2 =>
                  obtain ⟨k, rfl⟩ :=
                    goSelectTest_error_keyError p problems sample.taskId flag e2 hg
                  refine ⟨k, ?_⟩
                  simp only [hl, bind, Except.bind, pure, Except.pure]
                  simp [processGoBranch, getProblem, hpp, himp, hg, hts,
                    bind, Except.bind, pure, Except.pure]
                | ok w =>
                  refine ⟨"test_setup", ?_⟩
                  simp only [hl, bind, Except.bind, pure, Except.pure]
                  simp [processGoBranch, getProblem, hpp, himp, hg, hts,
                    bind, Except.bind, pure, Except.pure]
          · -- rust: the missing field must be "declaration"
            cases hd : p.declaration with
            | none =>
              refine ⟨"declaration", ?_⟩
              simp only [hl, bind, Except.bind, pure, Except.pure]
              simp [processRustBranch, getProblem, hpp, hd, bind, Except.bind]
            | some d =>
              exact absurd ⟨p, hpp, by rw [hgen]; rfl, htd,
                by intro hh; rw [hl] at hh; exact absurd hh (by decide),
                fun _ => by rw [hd]; rfl⟩ hnp
  · intro hsup
    have h1 : pyLower (pySeg0 sample.taskId "/") ≠ "python" := fun h => hsup (Or.inl h)
    have h2 : pyLower (pySeg0 sample.taskId "/") ≠ "cpp" :=
      fun h => hsup (Or.inr (Or.inl h))
    have h3 : pyLower (pySeg0 sample.taskId "/") ≠ "java" :=
      fun h => hsup (Or.inr (Or.inr (Or.inl h)))
    have h4 : pyLower (pySeg0 sample.taskId "/") ≠ "js" :=
      fun h => hsup (Or.inr (Or.inr (Or.inr (Or.inl h))))
    have h5 : pyLower (pySeg0 sample.taskId "/") ≠ "javascript" :=
      fun h => hsup (Or.inr (Or.inr (Or.inr (Or.inr (Or.inl h)))))
    have h6 : pyLower (pySeg0 sample.taskId "/") ≠ "go" :=
      fun h => hsup (Or.inr (Or.inr (Or.inr (Or.inr (Or.inr (Or.inl h))))))
    have h7 : pyLower (pySeg0 sample.taskId "/") ≠ "rust" :=
      fun h => hsup (Or.inr (Or.inr (Or.inr (Or.inr (Or.inr (Or.inr h))))))
    constructor
    · dsimp only [processHumanevalTest]
      cases hsel : selectTest problems sample.taskId flag with
      | error e => simp [bind, Except.bind, resultIsOk]
      | ok t =>
        cases hgen : sample.generation with
        | none => simp [bind, Except.bind, resultIsOk]
        | some code =>
          simp [bind, Except.bind, pure, Except.pure, resultIsOk,
            h1, h2, h3, h4, h5, h6, h7]
    · rintro ⟨p, hpp, hgen, htest, _, _⟩
      obtain ⟨code, hcode⟩ := Option.isSome_iff_exists.mp hgen
      obtain ⟨t, hsel⟩ := selectTest_ok_of_present problems sample.taskId flag p hpp htest
      dsimp only [processHumanevalTest]
      rw [hsel, hcode]
      simp [bind, Except.bind, pure, Except.pure, h1, h2, h3, h4, h5, h6, h7]

/-- Witness for C7 amended: a supported concrete Java sample assembles. -/
theorem claim_c7_witness :
    resultIsOk (processHumanevalTest ⟨"Java/0", some "class A \x7b", some "\x7d"⟩
      (fun t => if t = "Java/0" then some { test := some "T" } else none) false) = true :=
  (claim_c7_amended ⟨"Java/0", some "class A \x7b", some "\x7d"⟩
      (fun t => if t = "Java/0" then some { test := some "T" } else none) false).1
    (by decide)
    ⟨{ test := some "T" }, by decide, rfl, Or.inr rfl, by decide, by decide⟩

-- Claim C5 ---------------------------------------------------------------------

/-- Whether an assembler result is a source text containing `needle`. -/
def resultContains (r : Except PyErr String) (needle : String) : Bool :=
  match r with
  | .ok s => strIn needle s
  | .error _ => false

/-- A Go test scaffold that depends on the testify package but formats its
testify import line with TWO-space indentation instead of the exactly
four-space line that `str.replace` removes. -/
def c5BadScaffold : String :=
  "package main\n\nimport (\n  \"testing\"\n  \"github.com/stretchr/testify/assert\"\n)\n"

/-- Problem set for the C5 counterexample. -/
def c5BadProblems : Problems := fun t =>
  if t = "Go/0" then
    some { test := some "func TestX(t *testing.T) \x7b\x7d\n",
           importLine := some "",
           testSetup := some c5BadScaffold }
  else none

/-- C5 counterexample: a Go scaffold that depends on the testify package
(substring present) but formats the import line with two-space indentation
keeps its third-party reference in the assembled unit — the `str.replace`
with the exactly-formatted line does not fire. -/
theorem claim_c5_counterexample :
    strIn testifyPkg c5BadScaffold = true ∧
    resultContains
      (processHumanevalTest
        ⟨"Go/0", some "func F() int \x7b return 1 \x7d\n", some ""⟩
        c5BadProblems false) testifyPkg = true := by
  constructor
  · decide
  · decide

/-- The canonically formatted Go test scaffold of the dataset (four-space
indented import block). -/
def c5Scaffold : String :=
  "package main\n\nimport (\n    \"testing\"\n    \"github.com/stretchr/testify/assert\"\n)\n"

/-- What the code turns `c5Scaffold` into: the testify import line removed
and `"reflect"` inserted. -/
def c5ScaffoldStripped : String :=
  "package main\n\nimport (\n    \"reflect\"\n    \"testing\"\n)\n"

/-- Problem set for the C5 amended theorem, parametrized by the hidden
test. -/
def c5Problems (test : String) : Problems := fun t =>
  if t = "Go/0" then
    some { test := some test, importLine := some "", testSetup := some c5Scaffold }
  else none

/-- The unit the assembler produces for `c5Problems` (the Go branch output,
with the scaffold transformation pre-evaluated). -/
def c5Out (decl code test : String) : String :=
  let pkgs := goOtherPkgs c5ScaffoldStripped code
  let d := pyReplace (pyLstrip decl) "" ""
  (if pkgs ≠ [] then
    c5ScaffoldStripped ++ "\n" ++
      ("import (\n" ++ pyJoin "    " (pkgs.map (fun p => p ++ "\n")) ++ ")") ++ "\n" ++
      d ++ code ++ "\n" ++ test
   else c5ScaffoldStripped ++ "\n" ++ d ++ code ++ "\n" ++ test) ++ "\n" ++ goAssertStub

lemma notInfix_of_inL_false {n h : List Char} (hf : inL n h = false) : ¬ n <:+: h :=
  fun hi => absurd ((inL_eq_true_iff n h).mpr hi) (by rw [hf]; exact Bool.false_ne_true)

/-- String-level statement that `n` does not occur as a substring of `s`. -/
def NotIn (n s : String) : Prop := ¬ n.data <:+: s.data

lemma notIn_of_strIn_false {n s : String} (hf : strIn n s = false) : NotIn n s :=
  notInfix_of_inL_false hf

lemma strIn_false_of_notIn {n s : String} (h : NotIn n s) : strIn n s = false := by
  cases hb : strIn n s
  · rfl
  · exact absurd ((inL_eq_true_iff _ _).mp hb) h

lemma NotIn_append_head {n a b : String} (h₁ : NotIn n a) (h₂ : NotIn n b)
    (h₃ : ∀ c, b.data.head? = some c → c ∉ n.data) : NotIn n (a ++ b) := by
  unfold NotIn
  rw [String.data_append]
  exact not_infix_append_head h₁ h₂ h₃

lemma NotIn_append_last {n a b : String} (h₁ : NotIn n a) (h₂ : NotIn n b)
    (h₃ : ∀ c, a.data.getLast? = some c → c ∉ n.data) : NotIn n (a ++ b) := by
  unfold NotIn
  rw [String.data_append]
  exact not_infix_append_last h₁ h₂ h₃

/-- Pushing the testify-package no-occurrence through a leading newline. -/
lemma tpNotIn_nl_append (b : String) (hb : NotIn testifyPkg b) :
    NotIn testifyPkg ("\n" ++ b) := by
  refine NotIn_append_last (notIn_of_strIn_false (by decide)) hb ?_
  intro c hc
  have : c = '\n' := by
    simpa using hc.symm
  subst this
  decide

lemma flatten_map_singleton (l : List Char) :
    (l.map (fun c => [c])).flatten = l := by
  induction l with
  | nil => rfl
  | cons c rest ih => simp [ih]

/-- Python `s.replace("", "")` is the identity, so the Go branch's
`declaration.replace(import_string, "")` with the empty import string of
`c5Problems` leaves the declaration unchanged. -/
lemma pyReplace_empty (s : String) : pyReplace s "" "" = s := by
  apply String.ext
  show pyReplaceL s.data [] [] = s.data
  unfold pyReplaceL
  simp [flatten_map_singleton]

lemma infix_of_infix_suffix_append {n s dl X : List Char}
    (hs : s <:+ dl) (hi : n <:+: s ++ X) : n <:+: dl ++ X := by
  obtain ⟨u, rfl⟩ := hs
  rw [List.append_assoc]
  exact infix_append_right u hi

/-- Every entry of `other_pkgs` is the quoted form of a helper package. -/
lemma goOtherPkgs_mem (testSetup code x : String) (hx : x ∈ goOtherPkgs testSetup code) :
    ∃ n ∈ importHelperGo, x = "\"" ++ n ++ "\"" := by
  unfold goOtherPkgs at hx
  rw [List.mem_filterMap] at hx
  obtain ⟨n, hn, hfn⟩ := hx
  split at hfn
  · exact ⟨n, hn, (Option.some_inj.mp hfn).symm⟩
  · cases hfn

/-- A quoted helper-package import line is too short to contain the testify
package path and starts with a quote character. -/
lemma goPiece_facts (x : String) (hx : ∃ n ∈ importHelperGo, x = "\"" ++ n ++ "\"") :
    inL testifyPkg.data (x ++ "\n").data = false ∧ (x ++ "\n").data.head? = some '"' := by
  obtain ⟨n, hn, rfl⟩ := hx
  have hlen : n.length ≤ 10 := by
    have hall : ∀ m ∈ importHelperGo, m.length ≤ 10 := by decide
    exact hall n hn
  constructor
  · have hni : ¬ testifyPkg.data <:+: ("\"" ++ n ++ "\"" ++ "\n").data := by
      apply not_infix_of_lt_length
      have h34 : testifyPkg.data.length = 34 := by decide
      have hnd : n.data.length ≤ 10 := hlen
      rw [h34]
      simp only [String.data_append, List.length_append]
      have h1 : (['\"'] : List Char).length = 1 := rfl
      have h2 : (['\n'] : List Char).length = 1 := rfl
      omega
    cases hb : inL testifyPkg.data (("\"" ++ n ++ "\"" ++ "\n")).data
    · rfl
    · exact absurd ((inL_eq_true_iff _ _).mp hb) hni
  · simp [String.data_append]

/-- The generated `"    ".join(...)` import block body never mentions the
testify package. -/
lemma goJoin_notIn (pieces : List String)
    (hp : ∀ x ∈ pieces, inL testifyPkg.data x.data = false ∧ x.data.head? = some '"') :
    NotIn testifyPkg (pyJoin "    " pieces) := by
  induction pieces with
  | nil =>
    unfold NotIn
    intro hi
    have hle := hi.length_le
    have h34 : testifyPkg.data.length = 34 := by decide
    have h0 : (pyJoin "    " []).data.length = 0 := by decide
    omega
  | cons x xs ih =>
    cases xs with
    | nil =>
      have hx := hp x (List.mem_cons_self _ _)
      unfold NotIn
      have hdata : (pyJoin "    " [x]).data = x.data := rfl
      rw [hdata]
      exact notInfix_of_inL_false hx.1
    | cons y ys =>
      have hx := hp x (List.mem_cons_self _ _)
      have hrest := ih (fun z hz => hp z (List.mem_cons_of_mem _ hz))
      have hy := hp y (List.mem_cons_of_mem _ (List.mem_cons_self _ _))
      unfold NotIn
      have hdata : (pyJoin "    " (x :: y :: ys)).data =
          x.data ++ ("    ".data ++ (pyJoin "    " (y :: ys)).data) := by
        have h1 : (pyJoin "    " (x :: y :: ys)).data =
            (x.data ++ "    ".data) ++ (pyJoin "    " (y :: ys)).data := rfl
        rw [h1, List.append_assoc]
      rw [hdata]
      apply not_infix_append_head (notInfix_of_inL_false hx.1)
      · apply not_infix_append_last
        · exact not_infix_of_lt_length (by decide)
        · exact hrest
        · intro c hc
          have hcc : c = ' ' := by
            have : ("    " : String).data.getLast? = some ' ' := by decide
            rw [this] at hc
            exact (Option.some_inj.mp hc).symm
          subst hcc
          decide
      · intro c hc
        have hcc : c = ' ' := by
          have hh : (("    " : String).data ++ (pyJoin "    " (y :: ys)).data).head? =
              some ' ' := rfl
          rw [hh] at hc
          exact (Option.some_inj.mp hc).symm
        subst hcc
        decide

/-- The declaration/code/test block of the assembled Go unit contains no
testify reference when the sample's own text does not. -/
lemma c5_D_notIn (decl code test : String)
    (h : strIn testifyPkg (decl ++ code ++ "\n" ++ test) = false) :
    NotIn testifyPkg (pyReplace (pyLstrip decl) "" "" ++ code ++ "\n" ++ test) := by
  rw [pyReplace_empty]
  unfold NotIn
  intro hi
  apply notInfix_of_inL_false h
  simp only [String.data_append, List.append_assoc] at hi ⊢
  have hsuf : pyLstripL decl.data <:+ decl.data := List.dropWhile_suffix _
  exact infix_of_infix_suffix_append hsuf hi

/-- C5 amended: for the canonically formatted scaffold, if the sample's
declaration, generated code and test body nowhere mention the testify
package path, the assembled unit contains no occurrence of that path and
contains the synthesized in-file assertion stub, whose `Equal` check is
backed by `reflect.DeepEqual`.  (The counterexample shows this fails for
scaffolds whose import line is formatted differently, and references inside
the sample's own text are never removed.) -/
theorem claim_c5_amended (decl code test : String)
    (h : strIn testifyPkg (decl ++ code ++ "\n" ++ test) = false) :
    processHumanevalTest ⟨"Go/0", some decl, some code⟩ (c5Problems test) false =
        Except.ok (c5Out decl code test) ∧
      strIn testifyPkg (c5Out decl code test) = false ∧
      strIn goAssertStub (c5Out decl code test) = true ∧
      strIn "reflect.DeepEqual" goAssertStub = true := by
  refine ⟨rfl, ?_, ?_, by decide⟩
  · apply strIn_false_of_notIn
    have hS : NotIn testifyPkg c5ScaffoldStripped := notIn_of_strIn_false (by decide)
    have hStub : NotIn testifyPkg goAssertStub := notIn_of_strIn_false (by decide)
    have hD := c5_D_notIn decl code test h
    have hTail : NotIn testifyPkg
        ((pyReplace (pyLstrip decl) "" "" ++ code ++ "\n" ++ test) ++
          ("\n" ++ goAssertStub)) := by
      apply NotIn_append_head hD (tpNotIn_nl_append _ hStub)
      intro c hc
      have hcc : c = '\n' := by
        have hh : (("\n" ++ goAssertStub) : String).data.head? = some '\n' := rfl
        rw [hh] at hc
        exact (Option.some_inj.mp hc).symm
      subst hcc
      decide
    unfold c5Out
    by_cases hop : goOtherPkgs c5ScaffoldStripped code = []
    · simp only [hop, ne_eq, not_true_eq_false, if_false]
      have hgrp : c5ScaffoldStripped ++ "\n" ++ pyReplace (pyLstrip decl) "" "" ++
            code ++ "\n" ++ test ++ "\n" ++ goAssertStub =
          c5ScaffoldStripped ++ ("\n" ++
            ((pyReplace (pyLstrip decl) "" "" ++ code ++ "\n" ++ test) ++
              ("\n" ++ goAssertStub))) := by
        apply String.ext
        simp [String.data_append, List.append_assoc]
      rw [hgrp]
      apply NotIn_append_head hS (tpNotIn_nl_append _ hTail)
      intro c hc
      have hcc : c = '\n' := by
        have hh : (("\n" ++ ((pyReplace (pyLstrip decl) "" "" ++ code ++ "\n" ++ test) ++
            ("\n" ++ goAssertStub))) : String).data.head? = some '\n' := by
          rw [String.data_append]
          rfl
        rw [hh] at hc
        exact (Option.some_inj.mp hc).symm
      subst hcc
      decide
    · simp only [hop, ne_eq, not_false_eq_true, if_true]
      have hJoin : NotIn testifyPkg
          (pyJoin "    " ((goOtherPkgs c5ScaffoldStripped code).map (fun p => p ++ "\n"))) := by
        apply goJoin_notIn
        intro x hx
        rw [List.mem_map] at hx
        obtain ⟨y, hy, rfl⟩ := hx
        exact goPiece_facts y (goOtherPkgs_mem _ _ _ hy)
      have hIB : NotIn testifyPkg
          ("import (\n" ++
            (pyJoin "    " ((goOtherPkgs c5ScaffoldStripped code).map (fun p => p ++ "\n")) ++
              ")")) := by
        apply NotIn_append_last (notIn_of_strIn_false (by decide))
        · apply NotIn_append_head hJoin (notIn_of_strIn_false (by decide))
          intro c hc
          have hcc : c = ')' := by
            have hh : ((")" : String)).data.head? = some ')' := rfl
            rw [hh] at hc
            exact (Option.some_inj.mp hc).symm
          subst hcc
          decide
        · intro c hc
          have hcc : c = '\n' := by
            have hh : (("import (\n" : String)).data.getLast? = some '\n' := by decide
            rw [hh] at hc
            exact (Option.some_inj.mp hc).symm
          subst hcc
          decide
      have hMid : NotIn testifyPkg
          (("import (\n" ++
              (pyJoin "    " ((goOtherPkgs c5ScaffoldStripped code).map (fun p => p ++ "\n")) ++
                ")")) ++
            ("\n" ++
              ((pyReplace (pyLstrip decl) "" "" ++ code ++ "\n" ++ test) ++
                ("\n" ++ goAssertStub)))) := by
        apply NotIn_append_head hIB (tpNotIn_nl_append _ hTail)
        intro c hc
        have hcc : c = '\n' := by
          have hh : (("\n" ++ ((pyReplace (pyLstrip decl) "" "" ++ code ++ "\n" ++ test) ++
              ("\n" ++ goAssertStub))) : String).data.head? = some '\n' := by
            rw [String.data_append]
            rfl
          rw [hh] at hc
          exact (Option.some_inj.mp hc).symm
        subst hcc
        decide
      have hgrp : c5ScaffoldStripped ++ "\n" ++
            ("import (\n" ++
              pyJoin "    " ((goOtherPkgs c5ScaffoldStripped code).map (fun p => p ++ "\n")) ++
              ")") ++ "\n" ++
            pyReplace (pyLstrip decl) "" "" ++ code ++ "\n" ++ test ++ "\n" ++ goAssertStub =
          c5ScaffoldStripped ++ ("\n" ++
            (("import (\n" ++
                (pyJoin "    "
                  ((goOtherPkgs c5ScaffoldStripped code).map (fun p => p ++ "\n")) ++ ")")) ++
              ("\n" ++
                ((pyReplace (pyLstrip decl) "" "" ++ code ++ "\n" ++ test) ++
                  ("\n" ++ goAssertStub))))) := by
        apply String.ext
        simp [String.data_append, List.append_assoc]
      rw [hgrp]
      apply NotIn_append_head hS (tpNotIn_nl_append _ hMid)
      intro c hc
      have hcc : c = '\n' := by
        have hh : ∀ b : String, (("\n" ++ b) : String).data.head? = some '\n' := by
          intro b
          rw [String.data_append]
          rfl
        rw [hh] at hc
        exact (Option.some_inj.mp hc).symm
      subst hcc
      decide
  · have hinf : goAssertStub.data <:+: (c5Out decl code test).data := by
      unfold c5Out
      refine ⟨((if goOtherPkgs c5ScaffoldStripped code ≠ [] then
          c5ScaffoldStripped ++ "\n" ++
            ("import (\n" ++
              pyJoin "    " ((goOtherPkgs c5ScaffoldStripped code).map (fun p => p ++ "\n")) ++
              ")") ++ "\n" ++
            pyReplace (pyLstrip decl) "" "" ++ code ++ "\n" ++ test
         else c5ScaffoldStripped ++ "\n" ++ pyReplace (pyLstrip decl) "" "" ++ code ++
            "\n" ++ test) ++ "\n").data, [], ?_⟩
      simp [String.data_append]
    exact (inL_eq_true_iff _ _).mpr hinf

/-- Witness for C5 amended at a concrete Go sample free of testify
references. -/
theorem claim_c5_witness :
    processHumanevalTest
        ⟨"Go/0", some "func F(x int) int \x7b\n", some "    return x + 2\n\x7d\n"⟩
        (c5Problems "func TestF(t *testing.T) \x7b\x7d\n") false =
      Except.ok (c5Out "func F(x int) int \x7b\n" "    return x + 2\n\x7d\n"
        "func TestF(t *testing.T) \x7b\x7d\n") ∧
    strIn testifyPkg (c5Out "func F(x int) int \x7b\n" "    return x + 2\n\x7d\n"
        "func TestF(t *testing.T) \x7b\x7d\n") = false ∧
    strIn goAssertStub (c5Out "func F(x int) int \x7b\n" "    return x + 2\n\x7d\n"
        "func TestF(t *testing.T) \x7b\x7d\n") = true ∧
    strIn "reflect.DeepEqual" goAssertStub = true :=
  claim_c5_amended "func F(x int) int \x7b\n" "    return x + 2\n\x7d\n"
    "func TestF(t *testing.T) \x7b\x7d\n" (by decide)

end HumanEvalX
